import Mathlib

/-!
Shallow embedding of the interactive 3D visualizations of the repository
(src/src/components/BounceObjects.tsx and the BallPit component in
src/unnamed/part_000) over real-number arithmetic, together with proofs
settling the frozen claims about the physics update, the spawn-position
search, the highlight decay animation and the hover/resize state machine.

Modelling conventions:
* JS numbers are modelled as real numbers (the idealized arithmetic the
  spec itself appeals to with "within floating-point tolerance").
* THREE.Vector3.normalize divides by the length when it is nonzero and by 1
  otherwise (THREE uses divideScalar(length or 1)); this guard is kept.
* Math.random() draws are modelled as explicit oracle inputs threaded into
  the functions that consume them.
* Mesh rotation and Cannon angular velocity are pure visual/rotational
  state never read by any claim and are not carried in the state records.
-/

namespace S2P

noncomputable section

open scoped Classical

/-- Three-component vector, the model of THREE.Vector3 / CANNON.Vec3. -/
structure Vec3 where
  x : ℝ
  y : ℝ
  z : ℝ

namespace Vec3

def add (a b : Vec3) : Vec3 := ⟨a.x + b.x, a.y + b.y, a.z + b.z⟩

def sub (a b : Vec3) : Vec3 := ⟨a.x - b.x, a.y - b.y, a.z - b.z⟩

def smul (c : ℝ) (a : Vec3) : Vec3 := ⟨c * a.x, c * a.y, c * a.z⟩

def dot (a b : Vec3) : ℝ := a.x * b.x + a.y * b.y + a.z * b.z

def lengthSq (a : Vec3) : ℝ := a.x * a.x + a.y * a.y + a.z * a.z

/-- THREE.Vector3.length: Euclidean norm. -/
def length (a : Vec3) : ℝ := Real.sqrt a.lengthSq

/-- THREE.Vector3.normalize: divideScalar(length or 1) — the zero vector is
left unchanged instead of dividing by zero. -/
def normalize (a : Vec3) : Vec3 := if length a = 0 then a else smul (1 / length a) a

/-- THREE.Vector3.addScaledVector. -/
def addScaled (a w : Vec3) (s : ℝ) : Vec3 := add a (smul s w)

/-- THREE.Vector3.distanceTo. -/
def dist (a b : Vec3) : ℝ := length (sub b a)

def zero : Vec3 := ⟨0, 0, 0⟩

@[ext] theorem ext' {a b : Vec3} (h1 : a.x = b.x) (h2 : a.y = b.y) (h3 : a.z = b.z) :
    a = b := by
  obtain ⟨a1, a2, a3⟩ := a
  obtain ⟨b1, b2, b3⟩ := b
  simp_all

theorem lengthSq_nonneg (a : Vec3) : 0 ≤ a.lengthSq := by
  unfold lengthSq
  nlinarith [mul_self_nonneg a.x, mul_self_nonneg a.y, mul_self_nonneg a.z]

theorem length_nonneg (a : Vec3) : 0 ≤ a.length := Real.sqrt_nonneg _

theorem lengthSq_eq_zero_iff {a : Vec3} : a.lengthSq = 0 ↔ a = zero := by
  unfold lengthSq zero
  constructor
  · intro h
    have hx : a.x = 0 ∧ a.y = 0 ∧ a.z = 0 := by
      constructor
      · nlinarith [sq_nonneg a.x, sq_nonneg a.y, sq_nonneg a.z]
      constructor
      · nlinarith [sq_nonneg a.x, sq_nonneg a.y, sq_nonneg a.z]
      · nlinarith [sq_nonneg a.x, sq_nonneg a.y, sq_nonneg a.z]
    cases a
    simp_all
  · intro h; subst h; ring

theorem length_eq_zero_iff {a : Vec3} : a.length = 0 ↔ a = zero := by
  unfold length
  rw [Real.sqrt_eq_zero (lengthSq_nonneg a)]
  exact lengthSq_eq_zero_iff

theorem sq_length (a : Vec3) : a.length * a.length = a.lengthSq := by
  unfold length
  exact Real.mul_self_sqrt (lengthSq_nonneg a)

theorem lengthSq_smul (c : ℝ) (a : Vec3) : (smul c a).lengthSq = c ^ 2 * a.lengthSq := by
  unfold smul lengthSq; ring

theorem length_smul (c : ℝ) (a : Vec3) : (smul c a).length = |c| * a.length := by
  unfold length
  rw [lengthSq_smul, Real.sqrt_mul (sq_nonneg c), Real.sqrt_sq_eq_abs]

theorem length_normalize {a : Vec3} (h : a ≠ zero) : a.normalize.length = 1 := by
  have hl : a.length ≠ 0 := fun h0 => h (length_eq_zero_iff.mp h0)
  have hlpos : 0 < a.length := lt_of_le_of_ne (length_nonneg a) (Ne.symm hl)
  unfold normalize
  rw [if_neg hl, length_smul, abs_of_pos (by positivity : (0:ℝ) < 1 / a.length)]
  field_simp

theorem normalize_zero : normalize zero = zero := by
  unfold normalize
  rw [if_pos]
  rw [length_eq_zero_iff]

/-- Evaluation helper: the square root of an exhibited square. -/
theorem sqrt_eval {a b : ℝ} (hb : 0 ≤ b) (h : b * b = a) : Real.sqrt a = b := by
  subst h
  rw [show b * b = b ^ 2 by ring, Real.sqrt_sq hb]

theorem length_eval {a : Vec3} {b : ℝ} (hb : 0 ≤ b) (h : b * b = a.lengthSq) :
    a.length = b := sqrt_eval hb h

end Vec3

/-! ## BounceObjects.tsx — physics state and parameters -/

/-- One entry of objectsRef: a PhysicsObject (mesh position, velocity, mass,
collision radius stored in the size field).  The mesh color and rotation are
never read by the physics and are omitted. -/
structure PObj where
  pos : Vec3
  vel : Vec3
  mass : ℝ
  size : ℝ

/-- The props and derived boundary dimensions that updateObjectsPhysics reads. -/
structure PParams where
  interactionRadius : ℝ
  repelStrength : ℝ
  collisionBounceFactor : ℝ
  maxSpeed : ℝ
  damping : ℝ
  minSpeedForDamping : ℝ
  halfWidth : ℝ
  halfHeight : ℝ
  halfDepth : ℝ
  mousePos : Vec3

/-- The Math.random() draws one object consumes in one physics update:
the 2%-roll and the three components of the raw random direction. -/
structure RandInput where
  roll : ℝ
  dir : Vec3

/-- limitVelocity (BounceObjects.tsx): uniform scale-down when speed exceeds
the limit. -/
def limitVelocity (v : Vec3) (limit : ℝ) : Vec3 :=
  if v.length > limit then Vec3.smul (limit / v.length) v else v

/-- Math.sign. -/
def mathSign (x : ℝ) : ℝ := if 0 < x then 1 else if x < 0 then -1 else 0

/-- Mouse repulsion block of updateObjectsPhysics (lines 549-561): bodies
strictly inside interactionRadius get a velocity kick away from the pointer,
scaled by (1 - d/R) and divided by the mass. -/
def applyMouseRepulsion (p : PParams) (o : PObj) : PObj :=
  if Vec3.dist o.pos p.mousePos < p.interactionRadius then
    { o with vel := (Vec3.addScaled o.vel (Vec3.normalize (Vec3.sub o.pos p.mousePos))
        (p.repelStrength * (1 - Vec3.dist o.pos p.mousePos / p.interactionRadius) / o.mass)) }
  else o

/-- Damping / anti-settling block of updateObjectsPhysics (lines 563-577):
damping multiplies the velocity only above minSpeedForDamping; strictly
between 0 and 0.005 a 2%-probability random impulse of magnitude 0.01 fires. -/
def applyDamping (p : PParams) (r : RandInput) (o : PObj) : PObj :=
  if o.vel.length > p.minSpeedForDamping then
    { o with vel := Vec3.smul p.damping o.vel }
  else if 0 < o.vel.length ∧ o.vel.length < 0.005 then
    if r.roll < 0.02 then
      { o with vel := Vec3.addScaled o.vel (Vec3.normalize r.dir) 0.01 }
    else o
  else o

/-- Per-axis boundary clamp of updateObjectsPhysics (lines 589-604):
the position coordinate after the wall test. -/
def boundCoord (half coord : ℝ) : ℝ :=
  if |coord| > half then mathSign coord * half else coord

/-- Per-axis boundary reflection: the velocity coordinate after the wall test. -/
def boundVel (half coord v r : ℝ) : ℝ :=
  if |coord| > half then -v * r else v

/-- Boundary collision response for one object (all three axes). -/
def resolveBoundary (p : PParams) (o : PObj) : PObj :=
  { o with
    pos := ⟨boundCoord p.halfWidth o.pos.x, boundCoord p.halfHeight o.pos.y,
            boundCoord p.halfDepth o.pos.z⟩,
    vel := ⟨boundVel p.halfWidth o.pos.x o.vel.x p.collisionBounceFactor,
            boundVel p.halfHeight o.pos.y o.vel.y p.collisionBounceFactor,
            boundVel p.halfDepth o.pos.z o.vel.z p.collisionBounceFactor⟩ }

/-- Speed-limit stage of updateObjectsPhysics (line 580). -/
def limitStage (p : PParams) (o : PObj) : PObj :=
  { o with vel := limitVelocity o.vel p.maxSpeed }

/-- Position integration of updateObjectsPhysics (line 587):
mesh.position.add(velocity). -/
def moveBy (o : PObj) : PObj :=
  { o with pos := Vec3.add o.pos o.vel }

/-- First phase of updateObjectsPhysics for one object: mouse repulsion,
damping, speed limit, position integration, boundary response. -/
def integrateObject (p : PParams) (r : RandInput) (o : PObj) : PObj :=
  resolveBoundary p (moveBy (limitStage p (applyDamping p r (applyMouseRepulsion p o))))

/-- Contact normal of the pair loop: normalize(B - A). -/
def contactNormal (a b : PObj) : Vec3 := Vec3.normalize (Vec3.sub b.pos a.pos)

/-- Relative velocity along the contact normal. -/
def velAlongNormal (a b : PObj) : ℝ := Vec3.dot (Vec3.sub b.vel a.vel) (contactNormal a b)

/-- Impulse scalar -(1 + restitution) * velocityAlongNormal. -/
def impulseScalar (p : PParams) (a b : PObj) : ℝ :=
  -(1 + p.collisionBounceFactor) * velAlongNormal a b

/-- Positional separation vector: normal scaled by half the penetration. -/
def correctionVec (a b : PObj) : Vec3 :=
  Vec3.smul ((a.size + b.size - Vec3.dist a.pos b.pos) * 0.5) (contactNormal a b)

/-- A's velocity right after the impulse exchange: impulse applied along the
normal, scaled by -impulseScalar * massB / totalMass. -/
def pairVelA (p : PParams) (a b : PObj) : Vec3 :=
  Vec3.addScaled a.vel (contactNormal a b) (-(impulseScalar p a b) * (b.mass / (a.mass + b.mass)))

/-- B's velocity right after the impulse exchange: opposite impulse, scaled
by impulseScalar * massA / totalMass. -/
def pairVelB (p : PParams) (a b : PObj) : Vec3 :=
  Vec3.addScaled b.vel (contactNormal a b) (impulseScalar p a b * (a.mass / (a.mass + b.mass)))

/-- Pairwise collision resolution of updateObjectsPhysics (lines 606-658)
for one (A, B) pair: impulse exchange scaled by mass, speed limit, and
half-penetration positional separation; pairs that are separating
(velocity along normal > 0) are skipped. -/
def resolvePair (p : PParams) (a b : PObj) : PObj × PObj :=
  if Vec3.dist a.pos b.pos < a.size + b.size then
    if velAlongNormal a b > 0 then (a, b)
    else
      ({ a with
          vel := limitVelocity (pairVelA p a b) p.maxSpeed,
          pos := Vec3.sub a.pos (correctionVec a b) },
       { b with
          vel := limitVelocity (pairVelB p a b) p.maxSpeed,
          pos := Vec3.add b.pos (correctionVec a b) })
  else (a, b)

/-- Map with the running index, mirroring an indexed forEach/for loop. -/
def mapIdxFrom (f : ℕ → α → β) : ℕ → List α → List β
  | _, [] => []
  | k, a :: as => f k a :: mapIdxFrom f (k + 1) as

/-- Update entries i and j of the object list with the resolved pair. -/
def resolvePairAt (p : PParams) (objs : List PObj) (i j : ℕ) : List PObj :=
  match objs[i]?, objs[j]? with
  | some a, some b =>
    let ab := resolvePair p a b
    (objs.set i ab.1).set j ab.2
  | _, _ => objs

/-- Index pairs (i, j) with i < j < n in the order of the nested for loops. -/
def pairIndices (n : ℕ) : List (ℕ × ℕ) :=
  (List.range n).flatMap fun i => ((List.range n).drop (i + 1)).map fun j => (i, j)

/-- Second phase of updateObjectsPhysics: the O(n²) pair loop, folded in
source order over the current (already mutated) list. -/
def resolveAllPairs (p : PParams) (objs : List PObj) : List PObj :=
  (pairIndices objs.length).foldl (fun s ij => resolvePairAt p s ij.1 ij.2) objs

/-- updateObjectsPhysics (BounceObjects.tsx lines 535-659): one full physics
update — per-object integration followed by the pairwise collision loop.
The Math.random() draws of object i are supplied by the oracle rnd i. -/
def updateObjectsPhysics (p : PParams) (rnd : ℕ → RandInput) (objs : List PObj) : List PObj :=
  resolveAllPairs p (mapIdxFrom (fun i o => integrateObject p (rnd i) o) 0 objs)

/-! ## BounceObjects.tsx — findSafePosition (lines 329-378) -/

/-- Candidate spawn position of one attempt: random point in the 0.8-shrunken
boundary volume, z biased toward the front. -/
def candidatePos (hw hh hd r1 r2 r3 : ℝ) : Vec3 :=
  ⟨(r1 * 2 - 1) * hw * 0.8, (r2 * 2 - 1) * hh * 0.8, (r3 * 1.5 - 0.5) * hd * 0.8⟩

/-- Fallback position used after all attempts fail: factors 0.7 / 0.7 / 0.5. -/
def fallbackPos (hw hh hd r1 r2 r3 : ℝ) : Vec3 :=
  ⟨(r1 * 2 - 1) * hw * 0.7, (r2 * 2 - 1) * hh * 0.7, (r3 - 0.5) * hd * 0.5⟩

/-- The acceptance test of findSafePosition: a candidate is safe when no
existing object is closer than objectSize * 2.0 + that object's size. -/
def isSafePos (existing : List PObj) (objectSize : ℝ) (pos : Vec3) : Prop :=
  ∀ o ∈ existing, ¬ (Vec3.dist pos o.pos < objectSize * 2.0 + o.size)

/-- The attempt loop of findSafePosition: fuel counts remaining attempts,
k is the index of the current attempt; attempt k consumes random draws
3k, 3k+1, 3k+2 of the oracle. -/
def findSafeGo (hw hh hd : ℝ) (existing : List PObj) (objectSize : ℝ)
    (rnd : ℕ → ℝ) : ℕ → ℕ → Vec3
  | 0, k => fallbackPos hw hh hd (rnd (3 * k)) (rnd (3 * k + 1)) (rnd (3 * k + 2))
  | fuel + 1, k =>
    if isSafePos existing objectSize
        (candidatePos hw hh hd (rnd (3 * k)) (rnd (3 * k + 1)) (rnd (3 * k + 2))) then
      candidatePos hw hh hd (rnd (3 * k)) (rnd (3 * k + 1)) (rnd (3 * k + 2))
    else findSafeGo hw hh hd existing objectSize rnd fuel (k + 1)

/-- findSafePosition (BounceObjects.tsx lines 329-378): up to 50 random
attempts in the 0.8-shrunken volume, accepting the first one that passes the
separation test against all existing objects; otherwise a final random
fallback position with factors 0.7 / 0.7 / 0.5. -/
def findSafePosition (hw hh hd : ℝ) (existing : List PObj) (objectSize : ℝ)
    (rnd : ℕ → ℝ) : Vec3 :=
  findSafeGo hw hh hd existing objectSize rnd 50 0

/-- createObject (line 452): the collision radius stored in the size field is
0.7 of the visual scale. -/
def collisionRadius (scale : ℝ) : ℝ := scale * 0.7

/-! ## BallPit (src/unnamed/part_000) — materials and spheres -/

/-- The material fields of the BallPit component that its code reads or
writes: name (read by the highlight-material branch), color and emissive hex,
emissive intensity (animated), roughness/metalness (set on creation). -/
structure Material where
  name : String
  color : ℕ
  emissive : ℕ
  emissiveIntensity : ℝ
  roughness : ℝ
  metalness : ℝ

/-- String.prototype.includes. -/
def strContains (s pat : String) : Prop := ∃ a b, s = a ++ pat ++ b

/-- The matte black base material (THREE defaults: name empty,
emissiveIntensity 1). -/
def matteBlackMaterial : Material :=
  { name := "", color := 0x333333, emissive := 0x000000, emissiveIntensity := 1,
    roughness := 0.9, metalness := 0.1 }

/-- The shiny white base material. -/
def shinyWhiteMaterial : Material :=
  { name := "", color := 0xffffff, emissive := 0x000000, emissiveIntensity := 1,
    roughness := 0.1, metalness := 0 }

/-- The glowing pink base material (emissiveIntensity 20). -/
def glowingPinkMaterial : Material :=
  { name := "", color := 0x56378E, emissive := 0xff69b4, emissiveIntensity := 20,
    roughness := 0.4, metalness := 0.4 }

/-- Highlight-material construction of checkSphereHover (lines 438-479):
branches on the original material's name and color; every branch produces a
material with peak emissive intensity 50. -/
def mkHighlightMaterial (orig : Material) : Material :=
  if strContains orig.name "MeshStandard" ∧ orig.color = 0x000000 then
    { name := "", color := 0x333333, emissive := 0x222222, emissiveIntensity := 50,
      roughness := 0.7, metalness := 0.3 }
  else if strContains orig.name "MeshPhysical" then
    { name := "", color := 0xffffff, emissive := 0xaaaaaa, emissiveIntensity := 50,
      roughness := 0.05, metalness := 0.9 }
  else
    { name := "", color := 0xff69b4, emissive := 0xff69b4, emissiveIntensity := 50,
      roughness := 0.3, metalness := 0.5 }

/-- One entry of spheresRef: current material, original material, the Cannon
body's linear state, and the highlight-animation fields. -/
structure Sphere where
  material : Material
  originalMaterial : Material
  bodyPos : Vec3
  bodyVel : Vec3
  isAnimating : Bool
  highlightStartTime : Option ℝ

/-- The decay duration constant highlightAnimationDuration (1000 ms). -/
def highlightAnimationDuration : ℝ := 1000

/-- Whether the guard of updateHighlightAnimations fires for a sphere:
isAnimating and a truthy (present, nonzero) highlightStartTime. -/
def decayActive (s : Sphere) : Prop :=
  s.isAnimating = true ∧ ∃ t, s.highlightStartTime = some t ∧ t ≠ 0

/-- updateHighlightAnimations body for one sphere (lines 338-369): returns
the updated sphere and whether the decay completed this frame (which is when
the hovered index is reset).  progress = min(elapsed / duration, 1); below 1
the emissive intensity is interpolated from the peak 50 down to the original
material's intensity; at 1 the original material is restored and the
animation state cleared. -/
def updateHighlightOne (now : ℝ) (s : Sphere) : Sphere × Bool :=
  match s.highlightStartTime with
  | none => (s, false)
  | some t0 =>
    if s.isAnimating = true ∧ t0 ≠ 0 then
      if min ((now - t0) / highlightAnimationDuration) 1 < 1 then
        ({ s with material := { s.material with
            emissiveIntensity :=
              50 - min ((now - t0) / highlightAnimationDuration) 1 *
                (50 - s.originalMaterial.emissiveIntensity) } },
         false)
      else
        ({ s with
            material := s.originalMaterial
            isAnimating := false
            highlightStartTime := none }, true)
    else (s, false)

/-- The forEach of updateHighlightAnimations threading the hovered index:
whenever a sphere's decay completes and it is the currently hovered index,
the hovered index becomes -1. -/
def hoverFold (now : ℝ) : List Sphere → ℤ → ℕ → ℤ
  | [], h, _ => h
  | s :: rest, h, k =>
    hoverFold now rest
      (if (updateHighlightOne now s).2 = true ∧ h = (k : ℤ) then -1 else h) (k + 1)

/-- Interaction/highlight state of the BallPit: the sphere list and the
hovered index (-1 for none). -/
structure BallPitState where
  spheres : List Sphere
  hovered : ℤ

/-- updateHighlightAnimations (part_000 lines 335-371). -/
def updateHighlightAnimations (now : ℝ) (st : BallPitState) : BallPitState :=
  { spheres := mapIdxFrom (fun _ s => (updateHighlightOne now s).1) 0 st.spheres,
    hovered := hoverFold now st.spheres st.hovered 0 }

/-- Update one list entry in place (no-op when the index is out of range). -/
def modifyAt : List α → ℕ → (α → α) → List α
  | [], _, _ => []
  | a :: as, 0, f => f a :: as
  | a :: as, n + 1, f => a :: modifyAt as n f

/-- Transition of a sphere into the decaying state (leave-hover branch of
checkSphereHover, lines 384-396). -/
def startDecay (now : ℝ) (s : Sphere) : Sphere :=
  { s with isAnimating := true, highlightStartTime := some now }

/-- The chain-reaction random force on a nearby sphere: three Math.random()
draws mapped through (r - 0.5) * 3. -/
def chainForce (v : Vec3) : Vec3 :=
  ⟨(v.x - 0.5) * 3, (v.y - 0.5) * 3, (v.z - 0.5) * 3⟩

/-- Phase A of checkSphereHover (lines 384-396): if some sphere is hovered
and the ray no longer hits it, start its decay animation and clear the
hovered index. -/
def hoverLeavePhase (now : ℝ) (hit : Option ℕ) (st : BallPitState) : BallPitState :=
  if st.hovered ≠ -1 ∧ hit.map (fun n => (n : ℤ)) ≠ some st.hovered then
    { spheres := modifyAt st.spheres st.hovered.toNat (startDecay now), hovered := -1 }
  else st

/-- The hover impulse (lines 403-416): velocity kick 8 * rayDir on the hit
sphere's unit-mass body. -/
def impulsePhase (rayDir : Vec3) (i : ℕ) (st : BallPitState) : List Sphere :=
  modifyAt st.spheres i fun s =>
    { s with bodyVel := Vec3.add s.bodyVel (Vec3.smul 8 rayDir) }

/-- The chain reaction (lines 418-431): every other sphere within distance 3
of the hit sphere's body gets a random force. -/
def chainPhase (rayDir : Vec3) (i : ℕ) (nearRnd : ℕ → Vec3) (st : BallPitState) : List Sphere :=
  mapIdxFrom (fun j s =>
    if j ≠ i ∧ Vec3.dist s.bodyPos
        ((((impulsePhase rayDir i st)[i]?).map Sphere.bodyPos).getD Vec3.zero) < 3 then
      { s with bodyVel := Vec3.add s.bodyVel (chainForce (nearRnd j)) }
    else s) 0 (impulsePhase rayDir i st)

/-- Phase B of checkSphereHover on a hit (lines 399-487): impulse and chain
forces, then if the hit sphere is a new hover: record it, cancel any running
decay on it and install the peak highlight material. -/
def hoverEnterPhase (rayDir : Vec3) (i : ℕ) (nearRnd : ℕ → Vec3) (st : BallPitState) :
    BallPitState :=
  if (i : ℤ) ≠ st.hovered then
    { spheres := modifyAt (chainPhase rayDir i nearRnd st) i fun s =>
        { s with isAnimating := false, material := mkHighlightMaterial s.originalMaterial },
      hovered := (i : ℤ) }
  else { st with spheres := chainPhase rayDir i nearRnd st }

/-- checkSphereHover (part_000 lines 374-489).  The raycast against the
sphere meshes is modelled by the oracle hit (index of the first intersected
sphere, none when the ray misses); rayDir is the ray direction; nearRnd j
supplies the random draws of the chain-reaction force on sphere j. -/
def checkSphereHover (now : ℝ) (rayDir : Vec3) (hit : Option ℕ) (nearRnd : ℕ → Vec3)
    (st : BallPitState) : BallPitState :=
  match hit with
  | none => hoverLeavePhase now hit st
  | some i => hoverEnterPhase rayDir i nearRnd (hoverLeavePhase now hit st)

/-! ## BallPit — viewport geometry, grid creation, container, resize -/

/-- getViewportToWorldScale (lines 492-507): visible world width/height at
the z = 0 plane from the camera's vertical fov (degrees), distance and
aspect ratio. -/
def getViewportToWorldScale (fovDeg distZ aspect : ℝ) : ℝ × ℝ :=
  let fov := fovDeg * (Real.pi / 180)
  let distance := |distZ|
  let visibleHeight := 2 * Real.tan (fov / 2) * distance
  (visibleHeight * aspect, visibleHeight)

/-- The Math.random() draws consumed for one grid cell: the material roll,
the second (black/white) roll, and the three velocity component draws. -/
structure CellRnd where
  matRoll : ℝ
  matRoll2 : ℝ
  v1 : ℝ
  v2 : ℝ
  v3 : ℝ

/-- Grid construction parameters: grid counts and the visible world size. -/
structure GridParams where
  gridWidth : ℕ
  gridHeight : ℕ
  gridDepth : ℕ
  worldW : ℝ
  worldH : ℝ

/-- The sphere of one grid cell (x, y, z) of createSphereGrid
(lines 256-331): packed position with alternating row/layer offsets,
material chosen by the rolls (pink with probability 1/15, otherwise a fair
black/white split), random initial velocity of magnitude factor 1.2, no
animation running. -/
def mkGridSphere (gp : GridParams) (c : CellRnd) (x y z : ℕ) : Sphere :=
  let gridWorldWidth := gp.worldW * 0.95
  let gridWorldHeight := gp.worldH * 0.95
  let gridWorldDepth := min gridWorldWidth gridWorldHeight * 0.3
  let spacingX := gridWorldWidth / ((gp.gridWidth : ℝ) * 0.85)
  let spacingY := gridWorldHeight / ((gp.gridHeight : ℝ) * 0.85)
  let spacingZ := gridWorldDepth / ((gp.gridDepth : ℝ) * 0.85)
  let offsetX := -gridWorldWidth / 2 + spacingX / 1.8
  let offsetY := -gridWorldHeight / 2 + spacingY / 1.8
  let offsetZ := -gridWorldDepth / 2 + spacingZ / 1.8
  let rowOffset := if y % 2 = 0 then 0 else spacingX / 2
  let layerOffset := if z % 2 = 0 then 0 else spacingZ / 2
  let mat :=
    if c.matRoll < 1 / 15 then glowingPinkMaterial
    else if c.matRoll2 < 0.5 then matteBlackMaterial
    else shinyWhiteMaterial
  { material := mat, originalMaterial := mat,
    bodyPos := ⟨offsetX + (x : ℝ) * spacingX + rowOffset, offsetY + (y : ℝ) * spacingY,
                offsetZ + (z : ℝ) * spacingZ + layerOffset⟩,
    bodyVel := ⟨(c.v1 - 0.5) * 1.2, (c.v2 - 0.5) * 1.2, (c.v3 - 0.5) * 1.2⟩,
    isAnimating := false, highlightStartTime := none }

/-- createSphereGrid (lines 181-332): the triple x/y/z loop, with the random
draws of each cell supplied by the oracle rnd. -/
def createSphereGrid (gp : GridParams) (rnd : ℕ → ℕ → ℕ → CellRnd) : List Sphere :=
  (List.range gp.gridWidth).flatMap fun x =>
    (List.range gp.gridHeight).flatMap fun y =>
      (List.range gp.gridDepth).map fun z => mkGridSphere gp (rnd x y z) x y z

/-- The static boundary: half-extents of the container box. -/
structure Container where
  hw : ℝ
  hh : ℝ
  hd : ℝ

/-- createContainer (lines 524-611): box sized to 90% of the visible world,
depth 0.3 of the smaller extent; kept as its half-extents. -/
def createContainer (worldW worldH : ℝ) : Container :=
  let containerWidth := worldW * 0.9
  let containerHeight := worldH * 0.9
  let containerDepth := min containerWidth containerHeight * 0.3
  ⟨containerWidth / 2, containerHeight / 2, containerDepth / 2⟩

/-- Full BallPit state handled by the resize handler. -/
structure BPFull where
  spheres : List Sphere
  hovered : ℤ
  container : Container

/-- handleResize (part_000 lines 728-767): recompute the camera distance and
world extents from the new window size, restore the hovered sphere's
material and clear the hovered index if a sphere was hovered, then discard
and recreate the whole sphere grid and the container. -/
def handleResize (gridW gridH gridD : ℕ) (winW winH : ℝ) (rnd : ℕ → ℕ → ℕ → CellRnd)
    (st : BPFull) : BPFull :=
  let aspect := winW / winH
  let distZ := max 15 (15 / aspect)
  let dims := getViewportToWorldScale 50 distZ aspect
  let hov := if st.hovered = -1 then st.hovered else -1
  { spheres := createSphereGrid ⟨gridW, gridH, gridD, dims.1, dims.2⟩ rnd,
    hovered := hov,
    container := createContainer dims.1 dims.2 }

/-! ## Helper lemmas: evaluation of the physics stages -/

theorem Vec3.dist_nonneg (a b : Vec3) : 0 ≤ Vec3.dist a b := Real.sqrt_nonneg _

theorem Vec3.length_xaxis (a : ℝ) : Vec3.length ⟨a, 0, 0⟩ = |a| := by
  show Real.sqrt (a * a + 0 * 0 + 0 * 0) = |a|
  rw [show a * a + 0 * 0 + 0 * 0 = a * a by ring, Real.sqrt_mul_self_eq_abs]

theorem Vec3.dist_xaxis (a b : ℝ) :
    Vec3.dist ⟨a, 0, 0⟩ ⟨b, 0, 0⟩ = |b - a| := by
  show Vec3.length ⟨b - a, 0 - 0, 0 - 0⟩ = |b - a|
  rw [show (0 : ℝ) - 0 = 0 by ring, Vec3.length_xaxis]

theorem applyMouseRepulsion_far {p : PParams} {o : PObj}
    (h : ¬ Vec3.dist o.pos p.mousePos < p.interactionRadius) :
    applyMouseRepulsion p o = o := by
  unfold applyMouseRepulsion
  rw [if_neg h]

theorem applyDamping_id {p : PParams} {r : RandInput} {o : PObj}
    (h1 : ¬ o.vel.length > p.minSpeedForDamping)
    (h2 : ¬ (0 < o.vel.length ∧ o.vel.length < 0.005)) :
    applyDamping p r o = o := by
  unfold applyDamping
  rw [if_neg h1, if_neg h2]

theorem applyDamping_damp {p : PParams} {r : RandInput} {o : PObj}
    (h1 : o.vel.length > p.minSpeedForDamping) :
    applyDamping p r o = { o with vel := Vec3.smul p.damping o.vel } := by
  unfold applyDamping
  rw [if_pos h1]

theorem applyDamping_impulse {p : PParams} {r : RandInput} {o : PObj}
    (h1 : ¬ o.vel.length > p.minSpeedForDamping)
    (h2 : 0 < o.vel.length ∧ o.vel.length < 0.005) (h3 : r.roll < 0.02) :
    applyDamping p r o = { o with vel := Vec3.addScaled o.vel (Vec3.normalize r.dir) 0.01 } := by
  unfold applyDamping
  rw [if_neg h1, if_pos h2, if_pos h3]

theorem applyDamping_noroll {p : PParams} {r : RandInput} {o : PObj}
    (h1 : ¬ o.vel.length > p.minSpeedForDamping)
    (h2 : 0 < o.vel.length ∧ o.vel.length < 0.005) (h3 : ¬ r.roll < 0.02) :
    applyDamping p r o = o := by
  unfold applyDamping
  rw [if_neg h1, if_pos h2, if_neg h3]

theorem limitVelocity_id {v : Vec3} {limit : ℝ} (h : ¬ v.length > limit) :
    limitVelocity v limit = v := by
  unfold limitVelocity
  rw [if_neg h]

theorem limitVelocity_clamp {v : Vec3} {limit : ℝ} (h : v.length > limit) :
    limitVelocity v limit = Vec3.smul (limit / v.length) v := by
  unfold limitVelocity
  rw [if_pos h]

theorem limitStage_id {p : PParams} {o : PObj} (h : ¬ o.vel.length > p.maxSpeed) :
    limitStage p o = o := by
  unfold limitStage
  rw [limitVelocity_id h]

theorem resolveBoundary_id {p : PParams} {o : PObj}
    (hx : ¬ |o.pos.x| > p.halfWidth) (hy : ¬ |o.pos.y| > p.halfHeight)
    (hz : ¬ |o.pos.z| > p.halfDepth) :
    resolveBoundary p o = o := by
  unfold resolveBoundary boundCoord boundVel
  rw [if_neg hx, if_neg hy, if_neg hz, if_neg hx, if_neg hy, if_neg hz]

theorem resolvePair_far {p : PParams} {a b : PObj}
    (h : ¬ Vec3.dist a.pos b.pos < a.size + b.size) :
    resolvePair p a b = (a, b) := by
  unfold resolvePair
  rw [if_neg h]

theorem resolvePair_separating {p : PParams} {a b : PObj}
    (h : Vec3.dist a.pos b.pos < a.size + b.size) (hv : velAlongNormal a b > 0) :
    resolvePair p a b = (a, b) := by
  unfold resolvePair
  rw [if_pos h, if_pos hv]

theorem resolvePair_hit {p : PParams} {a b : PObj}
    (h : Vec3.dist a.pos b.pos < a.size + b.size) (hv : ¬ velAlongNormal a b > 0) :
    resolvePair p a b =
      ({ a with
          vel := limitVelocity (pairVelA p a b) p.maxSpeed,
          pos := Vec3.sub a.pos (correctionVec a b) },
       { b with
          vel := limitVelocity (pairVelB p a b) p.maxSpeed,
          pos := Vec3.add b.pos (correctionVec a b) }) := by
  unfold resolvePair
  rw [if_pos h, if_neg hv]

theorem mapIdxFrom_nil (f : ℕ → α → β) (k : ℕ) : mapIdxFrom f k [] = [] := rfl

theorem mapIdxFrom_cons (f : ℕ → α → β) (k : ℕ) (a : α) (as : List α) :
    mapIdxFrom f k (a :: as) = f k a :: mapIdxFrom f (k + 1) as := rfl

theorem pairIndices_one : pairIndices 1 = [] := by decide

theorem pairIndices_two : pairIndices 2 = [(0, 1)] := by decide

theorem resolveAllPairs_single (p : PParams) (a : PObj) :
    resolveAllPairs p [a] = [a] := by
  unfold resolveAllPairs
  simp [pairIndices_one]

theorem resolveAllPairs_two (p : PParams) (a b : PObj) :
    resolveAllPairs p [a, b] = [(resolvePair p a b).1, (resolvePair p a b).2] := by
  unfold resolveAllPairs
  simp only [List.length_cons, List.length_nil]
  rw [show (0 : ℕ) + 1 + 1 = 2 by ring, pairIndices_two]
  simp [resolvePairAt, List.set]

theorem updateObjectsPhysics_single (p : PParams) (rnd : ℕ → RandInput) (a : PObj) :
    updateObjectsPhysics p rnd [a] = [integrateObject p (rnd 0) a] := by
  unfold updateObjectsPhysics
  rw [mapIdxFrom_cons, mapIdxFrom_nil, resolveAllPairs_single]

theorem updateObjectsPhysics_two (p : PParams) (rnd : ℕ → RandInput) (a b : PObj) :
    updateObjectsPhysics p rnd [a, b] =
      [(resolvePair p (integrateObject p (rnd 0) a) (integrateObject p (rnd 1) b)).1,
       (resolvePair p (integrateObject p (rnd 0) a) (integrateObject p (rnd 1) b)).2] := by
  unfold updateObjectsPhysics
  rw [mapIdxFrom_cons, mapIdxFrom_cons, mapIdxFrom_nil, resolveAllPairs_two]

theorem Vec3.sub_self (a : Vec3) : Vec3.sub a a = Vec3.zero := by
  unfold Vec3.sub Vec3.zero
  norm_num

theorem Vec3.length_zero : Vec3.length Vec3.zero = 0 := by
  rw [show Vec3.zero = (⟨0, 0, 0⟩ : Vec3) from rfl, Vec3.length_xaxis]
  norm_num

theorem Vec3.sub_eq_zero_iff {a b : Vec3} : Vec3.sub a b = Vec3.zero ↔ a = b := by
  unfold Vec3.sub Vec3.zero
  cases a; cases b
  constructor
  · intro h
    simp only [Vec3.mk.injEq] at h ⊢
    constructor
    · linarith [h.1]
    constructor
    · linarith [h.2.1]
    · linarith [h.2.2]
  · intro h
    simp only [Vec3.mk.injEq] at h ⊢
    exact ⟨by linarith [h.1], by linarith [h.2.1], by linarith [h.2.2]⟩

theorem Vec3.add_sub_cancel_left (a b : Vec3) : Vec3.sub (Vec3.add a b) a = b := by
  unfold Vec3.sub Vec3.add
  cases b
  norm_num

theorem Vec3.addScaled_sub_cancel (a w : Vec3) (s : ℝ) :
    Vec3.sub (Vec3.addScaled a w s) a = Vec3.smul s w :=
  Vec3.add_sub_cancel_left a (Vec3.smul s w)

/-! ## C10: pointer repulsion -/

/-- Concrete parameters with an active pointer (interaction radius 1,
repel strength 1/2). -/
def pMouse : PParams :=
  { interactionRadius := 1, repelStrength := 1 / 2, collisionBounceFactor := 7 / 10,
    maxSpeed := 1 / 5, damping := 49 / 50, minSpeedForDamping := 3 / 100,
    halfWidth := 10, halfHeight := 10, halfDepth := 10, mousePos := Vec3.zero }

/-- A unit-mass body whose center coincides with the pointer position. -/
def oAtPointer : PObj := { pos := Vec3.zero, vel := Vec3.zero, mass := 1, size := 1 / 4 }

/-- C10 counterexample: a body whose center coincides with the pointer
position is strictly within the interaction radius, and the claim then
requires a velocity change of magnitude repelStrength * (1 - 0/R) / mass
= 1/2; the code's normalize guard returns the zero direction and the
velocity does not change at all. -/
theorem repulsion_zero_at_coincident_pointer :
    Vec3.dist oAtPointer.pos pMouse.mousePos < pMouse.interactionRadius ∧
    pMouse.repelStrength *
        (1 - Vec3.dist oAtPointer.pos pMouse.mousePos / pMouse.interactionRadius) /
        oAtPointer.mass = 1 / 2 ∧
    (applyMouseRepulsion pMouse oAtPointer).vel = oAtPointer.vel ∧
    Vec3.length (Vec3.sub (applyMouseRepulsion pMouse oAtPointer).vel oAtPointer.vel) = 0 ∧
    (0 : ℝ) ≠ 1 / 2 := by
  have hd : Vec3.dist oAtPointer.pos pMouse.mousePos = 0 := by
    rw [show oAtPointer.pos = (⟨0, 0, 0⟩ : Vec3) from rfl,
      show pMouse.mousePos = (⟨0, 0, 0⟩ : Vec3) from rfl, Vec3.dist_xaxis]
    norm_num
  have hvel : (applyMouseRepulsion pMouse oAtPointer).vel = oAtPointer.vel := by
    unfold applyMouseRepulsion
    rw [if_pos (by rw [hd]; norm_num [pMouse])]
    show Vec3.addScaled oAtPointer.vel
      (Vec3.normalize (Vec3.sub oAtPointer.pos pMouse.mousePos)) _ = oAtPointer.vel
    rw [show Vec3.sub oAtPointer.pos pMouse.mousePos = Vec3.zero from Vec3.sub_self _,
      Vec3.normalize_zero]
    unfold Vec3.addScaled Vec3.add Vec3.smul Vec3.zero
    show Vec3.mk (0 + _ * 0) (0 + _ * 0) (0 + _ * 0) = oAtPointer.vel
    norm_num
    rfl
  refine ⟨by rw [hd]; norm_num [pMouse], by rw [hd]; norm_num [pMouse, oAtPointer], hvel, ?_, by norm_num⟩
  rw [hvel, Vec3.sub_self, Vec3.length_zero]

/-- C10 amended: the repulsion kick has magnitude
repelStrength * (1 - d/R) / mass directed from the pointer to the body
center for bodies strictly inside the radius whose center is distinct from
the pointer position; bodies at distance 0 from the pointer get no kick
(zero-length normalize guard), and bodies at or beyond the radius are
untouched. -/
theorem applyMouseRepulsion_spec (p : PParams) (o : PObj)
    (hm : 0 < o.mass) (hs : 0 ≤ p.repelStrength) :
    (Vec3.dist o.pos p.mousePos < p.interactionRadius → o.pos ≠ p.mousePos →
      (applyMouseRepulsion p o).vel =
        Vec3.add o.vel
          (Vec3.smul
            (p.repelStrength * (1 - Vec3.dist o.pos p.mousePos / p.interactionRadius) / o.mass)
            (Vec3.normalize (Vec3.sub o.pos p.mousePos))) ∧
      Vec3.length (Vec3.sub (applyMouseRepulsion p o).vel o.vel) =
        p.repelStrength * (1 - Vec3.dist o.pos p.mousePos / p.interactionRadius) / o.mass) ∧
    (o.pos = p.mousePos → (applyMouseRepulsion p o).vel = o.vel) ∧
    (¬ Vec3.dist o.pos p.mousePos < p.interactionRadius → applyMouseRepulsion p o = o) := by
  refine ⟨?_, ?_, fun h => applyMouseRepulsion_far h⟩
  · intro hlt hne
    have hR : 0 < p.interactionRadius :=
      lt_of_le_of_lt (Vec3.dist_nonneg o.pos p.mousePos) hlt
    have hsc : 0 ≤ p.repelStrength *
        (1 - Vec3.dist o.pos p.mousePos / p.interactionRadius) / o.mass := by
      have h1 : Vec3.dist o.pos p.mousePos / p.interactionRadius < 1 :=
        (div_lt_one hR).mpr hlt
      have h2 : 0 ≤ 1 - Vec3.dist o.pos p.mousePos / p.interactionRadius := by linarith
      positivity
    have hv : (applyMouseRepulsion p o).vel =
        Vec3.add o.vel
          (Vec3.smul
            (p.repelStrength * (1 - Vec3.dist o.pos p.mousePos / p.interactionRadius) / o.mass)
            (Vec3.normalize (Vec3.sub o.pos p.mousePos))) := by
      unfold applyMouseRepulsion
      rw [if_pos hlt]
      rfl
    refine ⟨hv, ?_⟩
    rw [hv, Vec3.add_sub_cancel_left, Vec3.length_smul, Vec3.length_normalize, mul_one,
      abs_of_nonneg hsc]
    intro hz
    exact hne (Vec3.sub_eq_zero_iff.mp hz)
  · intro heq
    unfold applyMouseRepulsion
    by_cases hlt : Vec3.dist o.pos p.mousePos < p.interactionRadius
    · rw [if_pos hlt]
      show Vec3.addScaled o.vel (Vec3.normalize (Vec3.sub o.pos p.mousePos)) _ = o.vel
      rw [heq, Vec3.sub_self, Vec3.normalize_zero]
      unfold Vec3.addScaled Vec3.add Vec3.smul Vec3.zero
      cases hv : o.vel
      norm_num
    · rw [if_neg hlt]

/-- A body strictly inside the interaction radius, off the pointer. -/
def oNearPointer : PObj := { pos := ⟨1 / 2, 0, 0⟩, vel := Vec3.zero, mass := 2, size := 1 / 4 }

/-- C10 witness: the amended repulsion law applied at a concrete body. -/
theorem applyMouseRepulsion_spec_witness :
    0 < oNearPointer.mass ∧ 0 ≤ pMouse.repelStrength ∧
    ((Vec3.dist oNearPointer.pos pMouse.mousePos < pMouse.interactionRadius →
      oNearPointer.pos ≠ pMouse.mousePos →
      (applyMouseRepulsion pMouse oNearPointer).vel =
        Vec3.add oNearPointer.vel
          (Vec3.smul
            (pMouse.repelStrength *
              (1 - Vec3.dist oNearPointer.pos pMouse.mousePos / pMouse.interactionRadius) /
              oNearPointer.mass)
            (Vec3.normalize (Vec3.sub oNearPointer.pos pMouse.mousePos))) ∧
      Vec3.length (Vec3.sub (applyMouseRepulsion pMouse oNearPointer).vel oNearPointer.vel) =
        pMouse.repelStrength *
          (1 - Vec3.dist oNearPointer.pos pMouse.mousePos / pMouse.interactionRadius) /
          oNearPointer.mass) ∧
    (oNearPointer.pos = pMouse.mousePos → (applyMouseRepulsion pMouse oNearPointer).vel = oNearPointer.vel) ∧
    (¬ Vec3.dist oNearPointer.pos pMouse.mousePos < pMouse.interactionRadius →
      applyMouseRepulsion pMouse oNearPointer = oNearPointer)) :=
  ⟨by norm_num [oNearPointer], by norm_num [pMouse],
    applyMouseRepulsion_spec pMouse oNearPointer (by norm_num [oNearPointer])
      (by norm_num [pMouse])⟩

/-! ## C5: damping and the anti-settling impulse -/

/-- A body slower than minSpeedForDamping (3/100) but faster than the 0.005
impulse window. -/
def oSlow : PObj := { pos := Vec3.zero, vel := ⟨1 / 100, 0, 0⟩, mass := 1, size := 1 / 4 }

/-- A random draw whose 2% roll succeeds. -/
def rollHit : RandInput := { roll := 0, dir := ⟨1, 0, 0⟩ }

/-- C5 counterexample: a body with speed 1/100 is below the damping
threshold 3/100 and the 2% roll fires (roll = 0 < 0.02), yet the code
injects no impulse — the random impulse is only reachable for speeds
strictly between 0 and 0.005, so the velocity is unchanged. -/
theorem slow_body_no_random_impulse :
    Vec3.length oSlow.vel < pMouse.minSpeedForDamping ∧
    rollHit.roll < 0.02 ∧
    applyDamping pMouse rollHit oSlow = oSlow := by
  have hl : Vec3.length oSlow.vel = 1 / 100 := by
    rw [show oSlow.vel = (⟨1 / 100, 0, 0⟩ : Vec3) from rfl, Vec3.length_xaxis]
    norm_num
  refine ⟨by rw [hl]; norm_num [pMouse], by norm_num [rollHit], ?_⟩
  exact applyDamping_id (by rw [hl]; norm_num [pMouse]) (by rw [hl]; norm_num)

/-- C5 amended: damping multiplies the velocity exactly when the speed
exceeds minSpeedForDamping; below the threshold nothing happens unless the
speed is strictly between 0 and 0.005, in which case a roll below 0.02 adds
an impulse of magnitude 0.01 along the normalized random direction.  In
particular bodies at rest, and bodies with speed in [0.005,
minSpeedForDamping], are never perturbed, whatever the random draw. -/
theorem applyDamping_spec (p : PParams) (r : RandInput) (o : PObj) :
    (o.vel.length > p.minSpeedForDamping →
      applyDamping p r o = { o with vel := Vec3.smul p.damping o.vel }) ∧
    (o.vel.length ≤ p.minSpeedForDamping → o.vel.length = 0 ∨ 0.005 ≤ o.vel.length →
      applyDamping p r o = o) ∧
    (o.vel.length ≤ p.minSpeedForDamping → 0 < o.vel.length → o.vel.length < 0.005 →
      r.roll < 0.02 →
      applyDamping p r o = { o with vel := Vec3.addScaled o.vel (Vec3.normalize r.dir) 0.01 } ∧
      (r.dir ≠ Vec3.zero →
        Vec3.length (Vec3.sub (applyDamping p r o).vel o.vel) = 0.01)) ∧
    (o.vel.length ≤ p.minSpeedForDamping → 0 < o.vel.length → o.vel.length < 0.005 →
      ¬ r.roll < 0.02 → applyDamping p r o = o) := by
  refine ⟨fun h1 => applyDamping_damp h1, ?_, ?_, ?_⟩
  · intro h1 h2
    refine applyDamping_id (not_lt.mpr h1) ?_
    rcases h2 with h0 | h5
    · intro hc
      rw [h0] at hc
      exact lt_irrefl _ hc.1
    · intro hc
      exact absurd hc.2 (not_lt.mpr h5)
  · intro h1 h2 h3 h4
    have he := applyDamping_impulse (o := o) (p := p) (r := r) (not_lt.mpr h1) ⟨h2, h3⟩ h4
    refine ⟨he, fun hdir => ?_⟩
    rw [he]
    show Vec3.length (Vec3.sub (Vec3.addScaled o.vel (Vec3.normalize r.dir) 0.01) o.vel) = 0.01
    rw [Vec3.addScaled_sub_cancel, Vec3.length_smul, Vec3.length_normalize hdir]
    norm_num
  · intro h1 h2 h3 h4
    exact applyDamping_noroll (not_lt.mpr h1) ⟨h2, h3⟩ h4

/-- A body inside the impulse window (speed 1/250 < 0.005). -/
def oCrawl : PObj := { pos := Vec3.zero, vel := ⟨1 / 250, 0, 0⟩, mass := 1, size := 1 / 4 }

/-- C5 witness: the impulse case of the amended damping law at a concrete
crawling body with a successful roll. -/
theorem applyDamping_spec_witness :
    Vec3.length oCrawl.vel ≤ pMouse.minSpeedForDamping ∧
    0 < Vec3.length oCrawl.vel ∧ Vec3.length oCrawl.vel < 0.005 ∧
    rollHit.roll < 0.02 ∧
    (applyDamping pMouse rollHit oCrawl =
      { oCrawl with vel := Vec3.addScaled oCrawl.vel (Vec3.normalize rollHit.dir) 0.01 } ∧
      (rollHit.dir ≠ Vec3.zero →
        Vec3.length (Vec3.sub (applyDamping pMouse rollHit oCrawl).vel oCrawl.vel) = 0.01)) := by
  have hl : Vec3.length oCrawl.vel = 1 / 250 := by
    rw [show oCrawl.vel = (⟨1 / 250, 0, 0⟩ : Vec3) from rfl, Vec3.length_xaxis]
    norm_num
  refine ⟨by rw [hl]; norm_num [pMouse], by rw [hl]; norm_num, by rw [hl]; norm_num,
    by norm_num [rollHit], ?_⟩
  exact (applyDamping_spec pMouse rollHit oCrawl).2.2.1 (by rw [hl]; norm_num [pMouse])
    (by rw [hl]; norm_num) (by rw [hl]; norm_num) (by norm_num [rollHit])

/-! ## More evaluation helpers -/

theorem Vec3.add_zero' (a : Vec3) : Vec3.add a Vec3.zero = a := by
  unfold Vec3.add Vec3.zero
  cases a
  norm_num

theorem Vec3.normalize_xaxis (a : ℝ) (h : a ≠ 0) :
    Vec3.normalize ⟨a, 0, 0⟩ = ⟨a / |a|, 0, 0⟩ := by
  unfold Vec3.normalize
  rw [Vec3.length_xaxis, if_neg (abs_ne_zero.mpr h)]
  unfold Vec3.smul
  apply Vec3.ext'
  · show 1 / |a| * a = a / |a|
    ring
  · show 1 / |a| * 0 = 0
    ring
  · show 1 / |a| * 0 = 0
    ring

/-- Integration is the identity on a body at rest, away from the pointer and
inside the boundary. -/
theorem integrateObject_static {p : PParams} {r : RandInput} {o : PObj}
    (hiR : ¬ Vec3.dist o.pos p.mousePos < p.interactionRadius)
    (hv : o.vel = Vec3.zero) (hms : 0 ≤ p.minSpeedForDamping) (hmx : 0 ≤ p.maxSpeed)
    (hx : ¬ |o.pos.x| > p.halfWidth) (hy : ¬ |o.pos.y| > p.halfHeight)
    (hz : ¬ |o.pos.z| > p.halfDepth) :
    integrateObject p r o = o := by
  have hl : o.vel.length = 0 := by rw [hv, Vec3.length_zero]
  have hmove : moveBy o = o := by
    have h2 : Vec3.add o.pos o.vel = o.pos := by rw [hv, Vec3.add_zero']
    unfold moveBy
    rw [h2]
  unfold integrateObject
  rw [applyMouseRepulsion_far hiR,
    applyDamping_id (by rw [hl]; exact not_lt.mpr hms) (by rw [hl]; simp),
    limitStage_id (by rw [hl]; exact not_lt.mpr hmx), hmove,
    resolveBoundary_id hx hy hz]

/-- Shared plain parameters: no pointer interaction (radius 0), restitution
1/2, max speed 1/5, damping threshold 1, unit half-extents. -/
def pPlain : PParams :=
  { interactionRadius := 0, repelStrength := 0, collisionBounceFactor := 1 / 2,
    maxSpeed := 1 / 5, damping := 49 / 50, minSpeedForDamping := 1,
    halfWidth := 1, halfHeight := 1, halfDepth := 1, mousePos := Vec3.zero }

/-- Shared random oracle whose 2% roll always fails. -/
def rndPlain : ℕ → RandInput := fun _ => { roll := 1, dir := ⟨1, 0, 0⟩ }

theorem pPlain_no_mouse (o : PObj) :
    ¬ Vec3.dist o.pos pPlain.mousePos < pPlain.interactionRadius := by
  rw [show pPlain.interactionRadius = 0 from rfl]
  exact not_lt.mpr (Vec3.dist_nonneg _ _)

/-! ## C2: boundary collision response -/

/-- A body of collision radius 1/2 whose center sits at x = 7/10, inside the
half-extent 1 but beyond halfExtent - radius = 1/2. -/
def oMid : PObj := { pos := ⟨7 / 10, 0, 0⟩, vel := Vec3.zero, mass := 1, size := 1 / 2 }

/-- C2 counterexample: the claim's trigger (center beyond half-extent minus
radius) holds at x = 7/10, yet a full physics update leaves the body
unchanged — the code only reacts when the center itself exceeds the
half-extent, so no clamp (neither to the wall plane 1 nor to the
radius-adjusted plane 1/2) and no velocity reflection happens. -/
theorem boundary_trigger_ignores_radius :
    |oMid.pos.x| > pPlain.halfWidth - oMid.size ∧
    updateObjectsPhysics pPlain rndPlain [oMid] = [oMid] ∧
    oMid.pos.x ≠ pPlain.halfWidth ∧ oMid.pos.x ≠ pPlain.halfWidth - oMid.size := by
  refine ⟨by norm_num [oMid, pPlain, lt_abs], ?_, by norm_num [oMid, pPlain],
    by norm_num [oMid, pPlain]⟩
  rw [updateObjectsPhysics_single,
    integrateObject_static (pPlain_no_mouse _) rfl (by norm_num [pPlain]) (by norm_num [pPlain])
      (by norm_num [oMid, pPlain, abs_le]) (by norm_num [oMid, pPlain, abs_le])
      (by norm_num [oMid, pPlain, abs_le])]

/-- C2 amended: on each axis the wall test fires exactly when the center
coordinate exceeds the half-extent (the body's radius plays no role); it
then puts the center exactly on the wall plane sign(c) * halfExtent and
replaces the normal velocity component v by -v * restitution, so the rebound
speed is |v| * restitution; a non-firing axis is untouched. -/
theorem resolveBoundary_spec (p : PParams) (o : PObj) (hr : 0 ≤ p.collisionBounceFactor) :
    ((|o.pos.x| > p.halfWidth →
        (resolveBoundary p o).pos.x = mathSign o.pos.x * p.halfWidth ∧
        (resolveBoundary p o).vel.x = -o.vel.x * p.collisionBounceFactor ∧
        |(resolveBoundary p o).vel.x| = |o.vel.x| * p.collisionBounceFactor) ∧
      (¬ |o.pos.x| > p.halfWidth →
        (resolveBoundary p o).pos.x = o.pos.x ∧ (resolveBoundary p o).vel.x = o.vel.x)) ∧
    ((|o.pos.y| > p.halfHeight →
        (resolveBoundary p o).pos.y = mathSign o.pos.y * p.halfHeight ∧
        (resolveBoundary p o).vel.y = -o.vel.y * p.collisionBounceFactor ∧
        |(resolveBoundary p o).vel.y| = |o.vel.y| * p.collisionBounceFactor) ∧
      (¬ |o.pos.y| > p.halfHeight →
        (resolveBoundary p o).pos.y = o.pos.y ∧ (resolveBoundary p o).vel.y = o.vel.y)) ∧
    ((|o.pos.z| > p.halfDepth →
        (resolveBoundary p o).pos.z = mathSign o.pos.z * p.halfDepth ∧
        (resolveBoundary p o).vel.z = -o.vel.z * p.collisionBounceFactor ∧
        |(resolveBoundary p o).vel.z| = |o.vel.z| * p.collisionBounceFactor) ∧
      (¬ |o.pos.z| > p.halfDepth →
        (resolveBoundary p o).pos.z = o.pos.z ∧ (resolveBoundary p o).vel.z = o.vel.z)) := by
  have habs : ∀ v : ℝ, |-v * p.collisionBounceFactor| = |v| * p.collisionBounceFactor := by
    intro v
    rw [abs_mul, abs_neg, abs_of_nonneg hr]
  have hC : ∀ {half c : ℝ}, |c| > half → boundCoord half c = mathSign c * half := by
    intro half c h
    unfold boundCoord
    rw [if_pos h]
  have hC' : ∀ {half c : ℝ}, ¬ |c| > half → boundCoord half c = c := by
    intro half c h
    unfold boundCoord
    rw [if_neg h]
  have hV : ∀ {half c v r : ℝ}, |c| > half → boundVel half c v r = -v * r := by
    intro half c v r h
    unfold boundVel
    rw [if_pos h]
  have hV' : ∀ {half c v r : ℝ}, ¬ |c| > half → boundVel half c v r = v := by
    intro half c v r h
    unfold boundVel
    rw [if_neg h]
  refine ⟨⟨?_, ?_⟩, ⟨?_, ?_⟩, ⟨?_, ?_⟩⟩
  · intro h
    exact ⟨hC h, hV h, by rw [show (resolveBoundary p o).vel.x =
      boundVel p.halfWidth o.pos.x o.vel.x p.collisionBounceFactor from rfl, hV h]; exact habs _⟩
  · intro h
    exact ⟨hC' h, hV' h⟩
  · intro h
    exact ⟨hC h, hV h, by rw [show (resolveBoundary p o).vel.y =
      boundVel p.halfHeight o.pos.y o.vel.y p.collisionBounceFactor from rfl, hV h]; exact habs _⟩
  · intro h
    exact ⟨hC' h, hV' h⟩
  · intro h
    exact ⟨hC h, hV h, by rw [show (resolveBoundary p o).vel.z =
      boundVel p.halfDepth o.pos.z o.vel.z p.collisionBounceFactor from rfl, hV h]; exact habs _⟩
  · intro h
    exact ⟨hC' h, hV' h⟩

/-- A body beyond the +x wall, moving outward. -/
def oEscaped : PObj := { pos := ⟨6 / 5, 0, 0⟩, vel := ⟨1 / 10, 0, 0⟩, mass := 1, size := 1 / 4 }

/-- C2 witness: the amended wall law at a body beyond the +x wall. -/
theorem resolveBoundary_spec_witness :
    0 ≤ pPlain.collisionBounceFactor ∧
    |oEscaped.pos.x| > pPlain.halfWidth ∧
    ((resolveBoundary pPlain oEscaped).pos.x = mathSign oEscaped.pos.x * pPlain.halfWidth ∧
      (resolveBoundary pPlain oEscaped).vel.x = -oEscaped.vel.x * pPlain.collisionBounceFactor ∧
      |(resolveBoundary pPlain oEscaped).vel.x| =
        |oEscaped.vel.x| * pPlain.collisionBounceFactor) :=
  ⟨by norm_num [pPlain], by norm_num [oEscaped, pPlain, lt_abs],
    ((resolveBoundary_spec pPlain oEscaped (by norm_num [pPlain])).1).1
      (by norm_num [oEscaped, pPlain, lt_abs])⟩

/-! ## C1: boundary containment -/

theorem abs_boundCoord_le (half c : ℝ) (h0 : 0 ≤ half) : |boundCoord half c| ≤ half := by
  unfold boundCoord
  split_ifs with hc
  · unfold mathSign
    split_ifs with h1 h2
    · rw [one_mul, abs_of_nonneg h0]
    · rw [neg_one_mul, abs_neg, abs_of_nonneg h0]
    · have hc0 : c = 0 := le_antisymm (not_lt.mp h1) (not_lt.mp h2)
      rw [hc0] at hc
      simp at hc
      linarith
  · exact not_lt.mp hc

/-- A body resting exactly on the +x wall plane. -/
def objWallA : PObj := { pos := ⟨1, 0, 0⟩, vel := Vec3.zero, mass := 1, size := 1 / 4 }

/-- A second body overlapping the first, just inside the wall. -/
def objWallB : PObj := { pos := ⟨9 / 10, 0, 0⟩, vel := Vec3.zero, mass := 1, size := 1 / 4 }

/-- C1 counterexample: after one full physics update of two overlapping
resting bodies near the +x wall (half-extent 1), the pairwise positional
separation pushes body A to x = 6/5, strictly outside the boundary — the
containment invariant fails at the end of the update. -/
theorem pairCorrection_escapes_boundary :
    (updateObjectsPhysics pPlain rndPlain [objWallA, objWallB]).map PObj.pos =
      [⟨6 / 5, 0, 0⟩, ⟨7 / 10, 0, 0⟩] ∧
    ¬ |(6 : ℝ) / 5| ≤ pPlain.halfWidth := by
  have hA : integrateObject pPlain (rndPlain 0) objWallA = objWallA :=
    integrateObject_static (pPlain_no_mouse _) rfl (by norm_num [pPlain])
      (by norm_num [pPlain]) (by norm_num [objWallA, pPlain, abs_le])
      (by norm_num [objWallA, pPlain, abs_le]) (by norm_num [objWallA, pPlain, abs_le])
  have hB : integrateObject pPlain (rndPlain 1) objWallB = objWallB :=
    integrateObject_static (pPlain_no_mouse _) rfl (by norm_num [pPlain])
      (by norm_num [pPlain]) (by norm_num [objWallB, pPlain, abs_le])
      (by norm_num [objWallB, pPlain, abs_le]) (by norm_num [objWallB, pPlain, abs_le])
  have hdist : Vec3.dist objWallA.pos objWallB.pos = 1 / 10 := by
    rw [show objWallA.pos = (⟨1, 0, 0⟩ : Vec3) from rfl,
      show objWallB.pos = (⟨9 / 10, 0, 0⟩ : Vec3) from rfl, Vec3.dist_xaxis]
    rw [show (9 : ℝ) / 10 - 1 = -(1 / 10) by norm_num, abs_neg, abs_of_nonneg (by norm_num)]
  have hn : contactNormal objWallA objWallB = ⟨-1, 0, 0⟩ := by
    unfold contactNormal
    rw [show Vec3.sub objWallB.pos objWallA.pos = (⟨-(1 / 10), 0, 0⟩ : Vec3) from by
        show Vec3.sub ⟨9 / 10, 0, 0⟩ ⟨1, 0, 0⟩ = _
        unfold Vec3.sub
        norm_num,
      Vec3.normalize_xaxis _ (by norm_num)]
    rw [show |(-(1 / 10) : ℝ)| = 1 / 10 from by
      rw [abs_neg, abs_of_nonneg (by norm_num : (0 : ℝ) ≤ 1 / 10)]]
    norm_num
  have hvan : velAlongNormal objWallA objWallB = 0 := by
    unfold velAlongNormal
    rw [hn]
    show Vec3.dot (Vec3.sub Vec3.zero Vec3.zero) ⟨-1, 0, 0⟩ = 0
    unfold Vec3.sub Vec3.dot Vec3.zero
    norm_num
  have hcorr : correctionVec objWallA objWallB = ⟨-(1 / 5), 0, 0⟩ := by
    unfold correctionVec
    rw [hdist, hn]
    show Vec3.smul ((1 / 4 + 1 / 4 - 1 / 10) * 0.5) ⟨-1, 0, 0⟩ = _
    unfold Vec3.smul
    norm_num
  have hpair := resolvePair_hit (p := pPlain) (a := objWallA) (b := objWallB)
    (by rw [hdist]; norm_num [objWallA, objWallB]) (by rw [hvan]; norm_num)
  have h1 : Vec3.sub objWallA.pos (correctionVec objWallA objWallB) = ⟨6 / 5, 0, 0⟩ := by
    rw [hcorr]
    show Vec3.sub ⟨1, 0, 0⟩ ⟨-(1 / 5), 0, 0⟩ = _
    unfold Vec3.sub
    norm_num
  have h2 : Vec3.add objWallB.pos (correctionVec objWallA objWallB) = ⟨7 / 10, 0, 0⟩ := by
    rw [hcorr]
    show Vec3.add ⟨9 / 10, 0, 0⟩ ⟨-(1 / 5), 0, 0⟩ = _
    unfold Vec3.add
    norm_num
  constructor
  · rw [updateObjectsPhysics_two, hA, hB, hpair]
    simp only [List.map_cons, List.map_nil]
    show [Vec3.sub objWallA.pos (correctionVec objWallA objWallB),
      Vec3.add objWallB.pos (correctionVec objWallA objWallB)] = _
    rw [h1, h2]
  · norm_num [pPlain, abs_le]

/-- C1 amended: the containment invariant does hold after every update for
a single body (the pair loop is empty then): the final boundary clamp keeps
each center coordinate within the half-extents whenever these are
nonnegative.  With two or more bodies the pairwise separation runs after
the clamp and can move a body outside (see the counterexample). -/
theorem singleBody_boundary_containment (p : PParams) (r : ℕ → RandInput) (o : PObj)
    (hw : 0 ≤ p.halfWidth) (hh : 0 ≤ p.halfHeight) (hd : 0 ≤ p.halfDepth) :
    updateObjectsPhysics p r [o] = [integrateObject p (r 0) o] ∧
    |(integrateObject p (r 0) o).pos.x| ≤ p.halfWidth ∧
    |(integrateObject p (r 0) o).pos.y| ≤ p.halfHeight ∧
    |(integrateObject p (r 0) o).pos.z| ≤ p.halfDepth := by
  refine ⟨updateObjectsPhysics_single p r o, ?_, ?_, ?_⟩
  · exact abs_boundCoord_le p.halfWidth _ hw
  · exact abs_boundCoord_le p.halfHeight _ hh
  · exact abs_boundCoord_le p.halfDepth _ hd

/-- C1 witness: single-body containment at a concrete moving body that
crosses the wall during the step. -/
theorem singleBody_boundary_containment_witness :
    0 ≤ pPlain.halfWidth ∧ 0 ≤ pPlain.halfHeight ∧ 0 ≤ pPlain.halfDepth ∧
    (updateObjectsPhysics pPlain rndPlain [oEscaped] =
        [integrateObject pPlain (rndPlain 0) oEscaped] ∧
      |(integrateObject pPlain (rndPlain 0) oEscaped).pos.x| ≤ pPlain.halfWidth ∧
      |(integrateObject pPlain (rndPlain 0) oEscaped).pos.y| ≤ pPlain.halfHeight ∧
      |(integrateObject pPlain (rndPlain 0) oEscaped).pos.z| ≤ pPlain.halfDepth) :=
  ⟨by norm_num [pPlain], by norm_num [pPlain], by norm_num [pPlain],
    singleBody_boundary_containment pPlain rndPlain oEscaped (by norm_num [pPlain])
      (by norm_num [pPlain]) (by norm_num [pPlain])⟩

/-! ## C4: coincident centers -/

theorem Vec3.dot_zero_right (w : Vec3) : Vec3.dot w Vec3.zero = 0 := by
  unfold Vec3.dot Vec3.zero
  ring

theorem Vec3.smul_zero' (c : ℝ) : Vec3.smul c Vec3.zero = Vec3.zero := by
  unfold Vec3.smul Vec3.zero
  norm_num

theorem Vec3.sub_zero' (a : Vec3) : Vec3.sub a Vec3.zero = a := by
  unfold Vec3.sub Vec3.zero
  cases a
  norm_num

theorem Vec3.addScaled_zero_dir (a : Vec3) (s : ℝ) :
    Vec3.addScaled a Vec3.zero s = a := by
  unfold Vec3.addScaled
  rw [Vec3.smul_zero', Vec3.add_zero']

/-- Resolution of a pair with exactly coincident centers: the zero-length
contact normal survives the normalize guard as the zero vector, the impulse
and the positional correction vanish, and only the speed limit is applied —
the bodies stay coincident. -/
theorem resolvePair_of_coincident {p : PParams} {a b : PObj}
    (hpos : a.pos = b.pos) (hsz : 0 < a.size + b.size) :
    contactNormal a b = Vec3.zero ∧
    resolvePair p a b =
      ({ a with vel := limitVelocity a.vel p.maxSpeed },
       { b with vel := limitVelocity b.vel p.maxSpeed }) := by
  have hd : Vec3.dist a.pos b.pos = 0 := by
    unfold Vec3.dist
    rw [hpos, Vec3.sub_self, Vec3.length_zero]
  have hn : contactNormal a b = Vec3.zero := by
    unfold contactNormal
    rw [hpos, Vec3.sub_self, Vec3.normalize_zero]
  have hvan : velAlongNormal a b = 0 := by
    unfold velAlongNormal
    rw [hn, Vec3.dot_zero_right]
  have hcv : correctionVec a b = Vec3.zero := by
    unfold correctionVec
    rw [hn, Vec3.smul_zero']
  have hva : pairVelA p a b = a.vel := by
    unfold pairVelA
    rw [hn, Vec3.addScaled_zero_dir]
  have hvb : pairVelB p a b = b.vel := by
    unfold pairVelB
    rw [hn, Vec3.addScaled_zero_dir]
  refine ⟨hn, ?_⟩
  rw [resolvePair_hit (by rw [hd]; exact hsz) (by rw [hvan]; norm_num), hva, hvb, hcv,
    Vec3.sub_zero', Vec3.add_zero']

/-- Two resting bodies with exactly coincident centers. -/
def oTwinA : PObj := { pos := ⟨1 / 10, 0, 0⟩, vel := Vec3.zero, mass := 1, size := 1 / 4 }

/-- The twin of oTwinA at the same center. -/
def oTwinB : PObj := { pos := ⟨1 / 10, 0, 0⟩, vel := Vec3.zero, mass := 2, size := 1 / 4 }

/-- C4 counterexample: for two bodies with coincident centers the pair is in
collision, yet the resolution leaves both bodies completely unchanged and
still coincident: the contact normal is the zero vector, and no fallback
direction (previous normal or arbitrary axis) is substituted — contrary to
the claim that the contact is resolved with a fallback direction. -/
theorem coincident_centers_no_fallback :
    Vec3.dist oTwinA.pos oTwinB.pos < oTwinA.size + oTwinB.size ∧
    contactNormal oTwinA oTwinB = Vec3.zero ∧
    resolvePair pPlain oTwinA oTwinB = (oTwinA, oTwinB) ∧
    (resolvePair pPlain oTwinA oTwinB).1.pos = (resolvePair pPlain oTwinA oTwinB).2.pos := by
  have hd : Vec3.dist oTwinA.pos oTwinB.pos = 0 := by
    unfold Vec3.dist
    rw [show Vec3.sub oTwinB.pos oTwinA.pos = Vec3.zero from Vec3.sub_eq_zero_iff.mpr rfl,
      Vec3.length_zero]
  have h := resolvePair_of_coincident (p := pPlain) (a := oTwinA) (b := oTwinB) rfl
    (by norm_num [oTwinA, oTwinB])
  have hL : limitVelocity oTwinA.vel pPlain.maxSpeed = oTwinA.vel :=
    limitVelocity_id (by
      rw [show oTwinA.vel = Vec3.zero from rfl, Vec3.length_zero]
      norm_num [pPlain])
  have hLB : limitVelocity oTwinB.vel pPlain.maxSpeed = oTwinB.vel :=
    limitVelocity_id (by
      rw [show oTwinB.vel = Vec3.zero from rfl, Vec3.length_zero]
      norm_num [pPlain])
  have hr : resolvePair pPlain oTwinA oTwinB = (oTwinA, oTwinB) := by
    rw [h.2, hL, hLB]
  refine ⟨by rw [hd]; norm_num [oTwinA, oTwinB], h.1, hr, by rw [hr]; rfl⟩

/-- C4 amended: pairwise resolution of coincident centers never throws and
never divides by zero — the normalize guard turns the zero-length normal
into the zero vector — but no fallback direction is substituted: the impulse
and separation vanish and the bodies remain coincident; only the speed
limit acts on their velocities. -/
theorem resolvePair_coincident_noop (p : PParams) (a b : PObj)
    (hpos : a.pos = b.pos) (hsz : 0 < a.size + b.size) :
    Vec3.dist a.pos b.pos < a.size + b.size ∧
    contactNormal a b = Vec3.zero ∧
    resolvePair p a b =
      ({ a with vel := limitVelocity a.vel p.maxSpeed },
       { b with vel := limitVelocity b.vel p.maxSpeed }) ∧
    (resolvePair p a b).1.pos = a.pos ∧ (resolvePair p a b).2.pos = b.pos := by
  have hd : Vec3.dist a.pos b.pos = 0 := by
    unfold Vec3.dist
    rw [hpos, Vec3.sub_self, Vec3.length_zero]
  have h := resolvePair_of_coincident (p := p) hpos hsz
  refine ⟨by rw [hd]; exact hsz, h.1, h.2, by rw [h.2], by rw [h.2]⟩

/-- C4 witness: the coincident no-op law at the concrete twin pair. -/
theorem resolvePair_coincident_noop_witness :
    oTwinA.pos = oTwinB.pos ∧ 0 < oTwinA.size + oTwinB.size ∧
    (Vec3.dist oTwinA.pos oTwinB.pos < oTwinA.size + oTwinB.size ∧
      contactNormal oTwinA oTwinB = Vec3.zero ∧
      resolvePair pMouse oTwinA oTwinB =
        ({ oTwinA with vel := limitVelocity oTwinA.vel pMouse.maxSpeed },
         { oTwinB with vel := limitVelocity oTwinB.vel pMouse.maxSpeed }) ∧
      (resolvePair pMouse oTwinA oTwinB).1.pos = oTwinA.pos ∧
      (resolvePair pMouse oTwinA oTwinB).2.pos = oTwinB.pos) :=
  ⟨rfl, by norm_num [oTwinA, oTwinB],
    resolvePair_coincident_noop pMouse oTwinA oTwinB rfl (by norm_num [oTwinA, oTwinB])⟩

/-! ## C3: pairwise impulse resolution -/

theorem Vec3.smul_smul' (c1 c2 : ℝ) (w : Vec3) :
    Vec3.smul c1 (Vec3.smul c2 w) = Vec3.smul (c1 * c2) w := by
  unfold Vec3.smul
  apply Vec3.ext' <;> · show _ = _; ring

theorem Vec3.add_smul_self (t : ℝ) (w : Vec3) :
    Vec3.add w (Vec3.smul t w) = Vec3.smul (1 + t) w := by
  unfold Vec3.add Vec3.smul
  apply Vec3.ext' <;> · show _ = _; ring

theorem Vec3.sub_add_sub (x y u : Vec3) :
    Vec3.sub (Vec3.add x u) (Vec3.sub y u) = Vec3.add (Vec3.sub x y) (Vec3.smul 2 u) := by
  unfold Vec3.sub Vec3.add Vec3.smul
  apply Vec3.ext' <;> · show _ = _; ring

/-- C3 amended: for a colliding pair with distinct centers and positive
masses: a separating pair (velocity along the normal > 0) is skipped
unchanged; otherwise the final velocities are the speed-limited impulse
results, the impulse exchange itself preserves the pair's total linear
momentum (and so does the whole resolution whenever neither post-impulse
speed exceeds maxSpeed), and the positional separation leaves the centers
exactly the sum of the radii apart. -/
theorem resolvePair_spec (p : PParams) (a b : PObj)
    (hma : 0 < a.mass) (hmb : 0 < b.mass)
    (hd : Vec3.dist a.pos b.pos < a.size + b.size)
    (hd0 : 0 < Vec3.dist a.pos b.pos) :
    (velAlongNormal a b > 0 → resolvePair p a b = (a, b)) ∧
    (¬ velAlongNormal a b > 0 →
      (resolvePair p a b).1.vel = limitVelocity (pairVelA p a b) p.maxSpeed ∧
      (resolvePair p a b).2.vel = limitVelocity (pairVelB p a b) p.maxSpeed ∧
      Vec3.add (Vec3.smul a.mass (pairVelA p a b)) (Vec3.smul b.mass (pairVelB p a b)) =
        Vec3.add (Vec3.smul a.mass a.vel) (Vec3.smul b.mass b.vel) ∧
      (Vec3.length (pairVelA p a b) ≤ p.maxSpeed → Vec3.length (pairVelB p a b) ≤ p.maxSpeed →
        Vec3.add (Vec3.smul a.mass (resolvePair p a b).1.vel)
            (Vec3.smul b.mass (resolvePair p a b).2.vel) =
          Vec3.add (Vec3.smul a.mass a.vel) (Vec3.smul b.mass b.vel)) ∧
      Vec3.dist (resolvePair p a b).1.pos (resolvePair p a b).2.pos = a.size + b.size) := by
  have hM : a.mass + b.mass ≠ 0 := by positivity
  refine ⟨fun hsep => resolvePair_separating hd hsep, fun hvn => ?_⟩
  have hrp := resolvePair_hit (p := p) hd hvn
  have hmom : Vec3.add (Vec3.smul a.mass (pairVelA p a b)) (Vec3.smul b.mass (pairVelB p a b)) =
      Vec3.add (Vec3.smul a.mass a.vel) (Vec3.smul b.mass b.vel) := by
    have hz : a.mass * (-(impulseScalar p a b) * (b.mass / (a.mass + b.mass))) +
        b.mass * (impulseScalar p a b * (a.mass / (a.mass + b.mass))) = 0 := by
      field_simp
      ring
    unfold pairVelA pairVelB Vec3.addScaled Vec3.add Vec3.smul
    apply Vec3.ext'
    · show a.mass * (a.vel.x + -(impulseScalar p a b) * (b.mass / (a.mass + b.mass)) *
          (contactNormal a b).x) +
        b.mass * (b.vel.x + impulseScalar p a b * (a.mass / (a.mass + b.mass)) *
          (contactNormal a b).x) =
        a.mass * a.vel.x + b.mass * b.vel.x
      linear_combination (contactNormal a b).x * hz
    · show a.mass * (a.vel.y + -(impulseScalar p a b) * (b.mass / (a.mass + b.mass)) *
          (contactNormal a b).y) +
        b.mass * (b.vel.y + impulseScalar p a b * (a.mass / (a.mass + b.mass)) *
          (contactNormal a b).y) =
        a.mass * a.vel.y + b.mass * b.vel.y
      linear_combination (contactNormal a b).y * hz
    · show a.mass * (a.vel.z + -(impulseScalar p a b) * (b.mass / (a.mass + b.mass)) *
          (contactNormal a b).z) +
        b.mass * (b.vel.z + impulseScalar p a b * (a.mass / (a.mass + b.mass)) *
          (contactNormal a b).z) =
        a.mass * a.vel.z + b.mass * b.vel.z
      linear_combination (contactNormal a b).z * hz
  have hv1 : (resolvePair p a b).1.vel = limitVelocity (pairVelA p a b) p.maxSpeed := by
    rw [hrp]
  have hv2 : (resolvePair p a b).2.vel = limitVelocity (pairVelB p a b) p.maxSpeed := by
    rw [hrp]
  refine ⟨hv1, hv2, hmom, ?_, ?_⟩
  · intro hA hB
    rw [hv1, hv2, limitVelocity_id (not_lt.mpr hA), limitVelocity_id (not_lt.mpr hB)]
    exact hmom
  · have hL0 : 0 < Vec3.length (Vec3.sub b.pos a.pos) := hd0
    have hLne : Vec3.length (Vec3.sub b.pos a.pos) ≠ 0 := ne_of_gt hL0
    have hS0 : 0 < a.size + b.size := lt_trans hd0 hd
    have hnrm : contactNormal a b =
        Vec3.smul (1 / Vec3.length (Vec3.sub b.pos a.pos)) (Vec3.sub b.pos a.pos) := by
      unfold contactNormal Vec3.normalize
      rw [if_neg hLne]
    have hpos1 : (resolvePair p a b).1.pos = Vec3.sub a.pos (correctionVec a b) := by
      rw [hrp]
    have hpos2 : (resolvePair p a b).2.pos = Vec3.add b.pos (correctionVec a b) := by
      rw [hrp]
    have hcv : correctionVec a b =
        Vec3.smul ((a.size + b.size - Vec3.dist a.pos b.pos) * 0.5 *
          (1 / Vec3.length (Vec3.sub b.pos a.pos))) (Vec3.sub b.pos a.pos) := by
      unfold correctionVec
      rw [hnrm, Vec3.smul_smul']
    rw [hpos1, hpos2]
    show Vec3.length (Vec3.sub (Vec3.add b.pos (correctionVec a b))
      (Vec3.sub a.pos (correctionVec a b))) = a.size + b.size
    rw [Vec3.sub_add_sub, hcv, Vec3.smul_smul', Vec3.add_smul_self, Vec3.length_smul]
    have hdist_eq : Vec3.dist a.pos b.pos = Vec3.length (Vec3.sub b.pos a.pos) := rfl
    rw [hdist_eq]
    have hfrac : 1 + 2 * ((a.size + b.size - Vec3.length (Vec3.sub b.pos a.pos)) * 0.5 *
        (1 / Vec3.length (Vec3.sub b.pos a.pos))) =
        (a.size + b.size) / Vec3.length (Vec3.sub b.pos a.pos) := by
      field_simp
      ring
    rw [hfrac, abs_of_pos (div_pos hS0 hL0), div_mul_cancel₀ _ hLne]

/-- Shared evaluation facts for the resting overlapping wall pair. -/
theorem objWall_dist : Vec3.dist objWallA.pos objWallB.pos = 1 / 10 := by
  rw [show objWallA.pos = (⟨1, 0, 0⟩ : Vec3) from rfl,
    show objWallB.pos = (⟨9 / 10, 0, 0⟩ : Vec3) from rfl, Vec3.dist_xaxis]
  rw [show (9 : ℝ) / 10 - 1 = -(1 / 10) by norm_num, abs_neg,
    abs_of_nonneg (by norm_num : (0 : ℝ) ≤ 1 / 10)]

theorem objWall_normal : contactNormal objWallA objWallB = ⟨-1, 0, 0⟩ := by
  unfold contactNormal
  rw [show Vec3.sub objWallB.pos objWallA.pos = (⟨-(1 / 10), 0, 0⟩ : Vec3) from by
      show Vec3.sub ⟨9 / 10, 0, 0⟩ ⟨1, 0, 0⟩ = _
      unfold Vec3.sub
      norm_num,
    Vec3.normalize_xaxis _ (by norm_num)]
  rw [show |(-(1 / 10) : ℝ)| = 1 / 10 from by
    rw [abs_neg, abs_of_nonneg (by norm_num : (0 : ℝ) ≤ 1 / 10)]]
  norm_num

theorem objWall_van : velAlongNormal objWallA objWallB = 0 := by
  unfold velAlongNormal
  rw [objWall_normal]
  show Vec3.dot (Vec3.sub Vec3.zero Vec3.zero) ⟨-1, 0, 0⟩ = 0
  unfold Vec3.sub Vec3.dot Vec3.zero
  norm_num

theorem objWall_impulse : impulseScalar pPlain objWallA objWallB = 0 := by
  unfold impulseScalar
  rw [objWall_van]
  ring

theorem objWall_pairVelA : pairVelA pPlain objWallA objWallB = Vec3.zero := by
  unfold pairVelA
  rw [objWall_impulse]
  show Vec3.addScaled Vec3.zero (contactNormal objWallA objWallB) (-0 * (1 / (1 + 1))) = _
  unfold Vec3.addScaled Vec3.add Vec3.smul Vec3.zero
  norm_num

theorem objWall_pairVelB : pairVelB pPlain objWallA objWallB = Vec3.zero := by
  unfold pairVelB
  rw [objWall_impulse]
  show Vec3.addScaled Vec3.zero (contactNormal objWallA objWallB) (0 * (1 / (1 + 1))) = _
  unfold Vec3.addScaled Vec3.add Vec3.smul Vec3.zero
  norm_num

/-- C3 witness: the amended pair law at the resting overlapping pair. -/
theorem resolvePair_spec_witness :
    0 < objWallA.mass ∧ 0 < objWallB.mass ∧
    Vec3.dist objWallA.pos objWallB.pos < objWallA.size + objWallB.size ∧
    0 < Vec3.dist objWallA.pos objWallB.pos ∧
    ¬ velAlongNormal objWallA objWallB > 0 ∧
    ((resolvePair pPlain objWallA objWallB).1.vel =
        limitVelocity (pairVelA pPlain objWallA objWallB) pPlain.maxSpeed ∧
      (resolvePair pPlain objWallA objWallB).2.vel =
        limitVelocity (pairVelB pPlain objWallA objWallB) pPlain.maxSpeed ∧
      Vec3.add (Vec3.smul objWallA.mass (pairVelA pPlain objWallA objWallB))
          (Vec3.smul objWallB.mass (pairVelB pPlain objWallA objWallB)) =
        Vec3.add (Vec3.smul objWallA.mass objWallA.vel)
          (Vec3.smul objWallB.mass objWallB.vel) ∧
      (Vec3.length (pairVelA pPlain objWallA objWallB) ≤ pPlain.maxSpeed →
        Vec3.length (pairVelB pPlain objWallA objWallB) ≤ pPlain.maxSpeed →
        Vec3.add (Vec3.smul objWallA.mass (resolvePair pPlain objWallA objWallB).1.vel)
            (Vec3.smul objWallB.mass (resolvePair pPlain objWallA objWallB).2.vel) =
          Vec3.add (Vec3.smul objWallA.mass objWallA.vel)
            (Vec3.smul objWallB.mass objWallB.vel)) ∧
      Vec3.dist (resolvePair pPlain objWallA objWallB).1.pos
          (resolvePair pPlain objWallA objWallB).2.pos =
        objWallA.size + objWallB.size) :=
  ⟨by norm_num [objWallA], by norm_num [objWallB],
    by rw [objWall_dist]; norm_num [objWallA, objWallB],
    by rw [objWall_dist]; norm_num,
    by rw [objWall_van]; norm_num,
    (resolvePair_spec pPlain objWallA objWallB (by norm_num [objWallA])
        (by norm_num [objWallB]) (by rw [objWall_dist]; norm_num [objWallA, objWallB])
        (by rw [objWall_dist]; norm_num)).2
      (by rw [objWall_van]; norm_num)⟩

/-- A heavy body moving in +x that will reach the origin this step. -/
def objMomA : PObj := { pos := ⟨-(1 / 5), 0, 0⟩, vel := ⟨1 / 5, 0, 0⟩, mass := 3, size := 1 / 4 }

/-- A light resting body in the heavy body's path. -/
def objMomB : PObj := { pos := ⟨3 / 10, 0, 0⟩, vel := Vec3.zero, mass := 1, size := 1 / 4 }

/-- The heavy body after its integration phase (moved to the origin). -/
def objMomA1 : PObj := { pos := ⟨0, 0, 0⟩, vel := ⟨1 / 5, 0, 0⟩, mass := 3, size := 1 / 4 }

theorem objMomA_integrate : integrateObject pPlain (rndPlain 0) objMomA = objMomA1 := by
  have hlen : Vec3.length objMomA.vel = 1 / 5 := by
    rw [show objMomA.vel = (⟨1 / 5, 0, 0⟩ : Vec3) from rfl, Vec3.length_xaxis,
      abs_of_nonneg (by norm_num : (0 : ℝ) ≤ 1 / 5)]
  have hmv : moveBy objMomA = objMomA1 := by
    unfold moveBy Vec3.add
    norm_num [objMomA, objMomA1]
  unfold integrateObject
  rw [applyMouseRepulsion_far (pPlain_no_mouse _),
    applyDamping_id (by rw [hlen]; norm_num [pPlain]) (by rw [hlen]; norm_num),
    limitStage_id (by rw [hlen]; norm_num [pPlain]), hmv,
    resolveBoundary_id (by norm_num [objMomA1, pPlain, abs_le])
      (by norm_num [objMomA1, pPlain, abs_le]) (by norm_num [objMomA1, pPlain, abs_le])]

theorem objMomB_integrate : integrateObject pPlain (rndPlain 1) objMomB = objMomB :=
  integrateObject_static (pPlain_no_mouse _) rfl (by norm_num [pPlain]) (by norm_num [pPlain])
    (by norm_num [objMomB, pPlain, abs_le]) (by norm_num [objMomB, pPlain, abs_le])
    (by norm_num [objMomB, pPlain, abs_le])

theorem objMom_dist : Vec3.dist objMomA1.pos objMomB.pos = 3 / 10 := by
  rw [show objMomA1.pos = (⟨0, 0, 0⟩ : Vec3) from rfl,
    show objMomB.pos = (⟨3 / 10, 0, 0⟩ : Vec3) from rfl, Vec3.dist_xaxis]
  rw [show (3 : ℝ) / 10 - 0 = 3 / 10 by norm_num,
    abs_of_nonneg (by norm_num : (0 : ℝ) ≤ 3 / 10)]

theorem objMom_normal : contactNormal objMomA1 objMomB = ⟨1, 0, 0⟩ := by
  unfold contactNormal
  rw [show Vec3.sub objMomB.pos objMomA1.pos = (⟨3 / 10, 0, 0⟩ : Vec3) from by
      show Vec3.sub ⟨3 / 10, 0, 0⟩ ⟨0, 0, 0⟩ = _
      unfold Vec3.sub
      norm_num,
    Vec3.normalize_xaxis _ (by norm_num)]
  rw [abs_of_nonneg (by norm_num : (0 : ℝ) ≤ 3 / 10)]
  norm_num

theorem objMom_van : velAlongNormal objMomA1 objMomB = -(1 / 5) := by
  unfold velAlongNormal
  rw [objMom_normal]
  show Vec3.dot (Vec3.sub Vec3.zero ⟨1 / 5, 0, 0⟩) ⟨1, 0, 0⟩ = -(1 / 5)
  unfold Vec3.sub Vec3.dot Vec3.zero
  norm_num

theorem objMom_impulse : impulseScalar pPlain objMomA1 objMomB = 3 / 10 := by
  unfold impulseScalar
  rw [objMom_van]
  norm_num [pPlain]

theorem objMom_pairVelA : pairVelA pPlain objMomA1 objMomB = ⟨1 / 8, 0, 0⟩ := by
  unfold pairVelA
  rw [objMom_normal, objMom_impulse]
  show Vec3.addScaled ⟨1 / 5, 0, 0⟩ ⟨1, 0, 0⟩ (-(3 / 10) * (1 / (3 + 1))) = _
  unfold Vec3.addScaled Vec3.add Vec3.smul
  norm_num

theorem objMom_pairVelB : pairVelB pPlain objMomA1 objMomB = ⟨9 / 40, 0, 0⟩ := by
  unfold pairVelB
  rw [objMom_normal, objMom_impulse]
  show Vec3.addScaled Vec3.zero ⟨1, 0, 0⟩ ((3 / 10) * (3 / (3 + 1))) = _
  unfold Vec3.addScaled Vec3.add Vec3.smul Vec3.zero
  norm_num

/-- C3 counterexample: one full update of a heavy moving body hitting a
light resting one.  The pair is colliding and approaching (the claim's
preconditions), the claimed post-impulse velocity of the light body (9/40)
exceeds maxSpeed = 1/5 and is clamped, and the x-momentum after the update
is 3 * 1/8 + 1 * 1/5 = 23/40, while before it was 3 * 1/5 = 24/40: the
pair resolution does not preserve the pair's total linear momentum. -/
theorem pair_impulse_momentum_not_preserved :
    Vec3.dist objMomA1.pos objMomB.pos < objMomA1.size + objMomB.size ∧
    velAlongNormal objMomA1 objMomB < 0 ∧
    (updateObjectsPhysics pPlain rndPlain [objMomA, objMomB]).map PObj.vel =
      [⟨1 / 8, 0, 0⟩, ⟨1 / 5, 0, 0⟩] ∧
    objMomA.mass * (1 / 8 : ℝ) + objMomB.mass * (1 / 5) ≠
      objMomA.mass * objMomA.vel.x + objMomB.mass * objMomB.vel.x := by
  have hd : Vec3.dist objMomA1.pos objMomB.pos < objMomA1.size + objMomB.size := by
    rw [objMom_dist]
    norm_num [objMomA1, objMomB]
  have hvn : ¬ velAlongNormal objMomA1 objMomB > 0 := by
    rw [objMom_van]
    norm_num
  have hlimA : limitVelocity (pairVelA pPlain objMomA1 objMomB) pPlain.maxSpeed =
      ⟨1 / 8, 0, 0⟩ := by
    rw [objMom_pairVelA]
    exact limitVelocity_id (by
      rw [Vec3.length_xaxis, abs_of_nonneg (by norm_num : (0 : ℝ) ≤ 1 / 8)]
      norm_num [pPlain])
  have hlimB : limitVelocity (pairVelB pPlain objMomA1 objMomB) pPlain.maxSpeed =
      ⟨1 / 5, 0, 0⟩ := by
    rw [objMom_pairVelB]
    have hlen : Vec3.length (⟨9 / 40, 0, 0⟩ : Vec3) = 9 / 40 := by
      rw [Vec3.length_xaxis, abs_of_nonneg (by norm_num : (0 : ℝ) ≤ 9 / 40)]
    rw [limitVelocity_clamp (by rw [hlen]; norm_num [pPlain]), hlen]
    unfold Vec3.smul
    norm_num [pPlain]
  refine ⟨hd, by rw [objMom_van]; norm_num, ?_, by norm_num [objMomA, objMomB, Vec3.zero]⟩
  rw [updateObjectsPhysics_two, objMomA_integrate, objMomB_integrate, resolvePair_hit hd hvn]
  simp only [List.map_cons, List.map_nil]
  show [limitVelocity (pairVelA pPlain objMomA1 objMomB) pPlain.maxSpeed,
    limitVelocity (pairVelB pPlain objMomA1 objMomB) pPlain.maxSpeed] = _
  rw [hlimA, hlimB]

/-! ## C6: safe spawn positions -/

/-- Full run of the attempt loop: either some attempt j < fuel is the first
safe one and is returned, or all attempts fail and the fallback position
(drawn from the next three random values) is returned. -/
theorem findSafeGo_spec (hw hh hd : ℝ) (ex : List PObj) (os : ℝ) (rnd : ℕ → ℝ) :
    ∀ fuel k : ℕ,
      (∃ j, j < fuel ∧
        isSafePos ex os (candidatePos hw hh hd (rnd (3 * (k + j))) (rnd (3 * (k + j) + 1))
          (rnd (3 * (k + j) + 2))) ∧
        (∀ i, i < j → ¬ isSafePos ex os (candidatePos hw hh hd (rnd (3 * (k + i)))
          (rnd (3 * (k + i) + 1)) (rnd (3 * (k + i) + 2)))) ∧
        findSafeGo hw hh hd ex os rnd fuel k =
          candidatePos hw hh hd (rnd (3 * (k + j))) (rnd (3 * (k + j) + 1))
            (rnd (3 * (k + j) + 2))) ∨
      ((∀ j, j < fuel → ¬ isSafePos ex os (candidatePos hw hh hd (rnd (3 * (k + j)))
          (rnd (3 * (k + j) + 1)) (rnd (3 * (k + j) + 2)))) ∧
        findSafeGo hw hh hd ex os rnd fuel k =
          fallbackPos hw hh hd (rnd (3 * (k + fuel))) (rnd (3 * (k + fuel) + 1))
            (rnd (3 * (k + fuel) + 2))) := by
  intro fuel
  induction fuel with
  | zero =>
    intro k
    exact Or.inr ⟨fun j hj => absurd hj (Nat.not_lt_zero j), rfl⟩
  | succ fuel ih =>
    intro k
    by_cases hs : isSafePos ex os
      (candidatePos hw hh hd (rnd (3 * k)) (rnd (3 * k + 1)) (rnd (3 * k + 2)))
    · left
      refine ⟨0, Nat.succ_pos _, by simpa using hs,
        fun i hi => absurd hi (Nat.not_lt_zero i), ?_⟩
      show (if isSafePos ex os (candidatePos hw hh hd (rnd (3 * k)) (rnd (3 * k + 1))
          (rnd (3 * k + 2))) then
          candidatePos hw hh hd (rnd (3 * k)) (rnd (3 * k + 1)) (rnd (3 * k + 2))
        else findSafeGo hw hh hd ex os rnd fuel (k + 1)) = _
      rw [if_pos hs]
      norm_num
    · have hstep : findSafeGo hw hh hd ex os rnd (fuel + 1) k =
          findSafeGo hw hh hd ex os rnd fuel (k + 1) := by
        show (if isSafePos ex os (candidatePos hw hh hd (rnd (3 * k)) (rnd (3 * k + 1))
            (rnd (3 * k + 2))) then
            candidatePos hw hh hd (rnd (3 * k)) (rnd (3 * k + 1)) (rnd (3 * k + 2))
          else findSafeGo hw hh hd ex os rnd fuel (k + 1)) = _
        rw [if_neg hs]
      rcases ih (k + 1) with ⟨j, hj, hsafe, hprev, heq⟩ | ⟨hall, heq⟩
      · left
        have hidx : k + 1 + j = k + (j + 1) := by omega
        rw [hidx] at hsafe heq
        refine ⟨j + 1, by omega, hsafe, ?_, by rw [hstep, heq]⟩
        intro i hi
        match i, hi with
        | 0, _ => simpa using hs
        | i + 1, hi =>
          have := hprev i (by omega)
          rwa [show k + 1 + i = k + (i + 1) by omega] at this
      · right
        have hidx : k + 1 + fuel = k + (fuel + 1) := by omega
        rw [hidx] at heq
        refine ⟨?_, by rw [hstep, heq]⟩
        intro j hj
        match j, hj with
        | 0, _ => simpa using hs
        | j + 1, hj =>
          have := hall j (by omega)
          rwa [show k + 1 + j = k + (j + 1) by omega] at this

/-- One acceptance step: if the current candidate is safe it is returned. -/
theorem findSafeGo_first_safe {hw hh hd : ℝ} {ex : List PObj} {os : ℝ} {rnd : ℕ → ℝ}
    (fuel : ℕ) {k : ℕ}
    (hs : isSafePos ex os
      (candidatePos hw hh hd (rnd (3 * k)) (rnd (3 * k + 1)) (rnd (3 * k + 2)))) :
    findSafeGo hw hh hd ex os rnd (fuel + 1) k =
      candidatePos hw hh hd (rnd (3 * k)) (rnd (3 * k + 1)) (rnd (3 * k + 2)) := by
  show (if isSafePos ex os (candidatePos hw hh hd (rnd (3 * k)) (rnd (3 * k + 1))
      (rnd (3 * k + 2))) then
      candidatePos hw hh hd (rnd (3 * k)) (rnd (3 * k + 1)) (rnd (3 * k + 2))
    else findSafeGo hw hh hd ex os rnd fuel (k + 1)) = _
  rw [if_pos hs]

/-- C6 amended: findSafePosition accepts the first of at most 50 random
candidates (drawn in the 0.8-shrunken volume) whose distance to every
existing object is at least objectSize * 2.0 + that object's collision
radius — an asymmetric threshold of twice the new body's full scale plus
the existing body's stored radius, not a 2.0x multiple of the sum of the
two radii; when all 50 attempts fail, it returns the fallback random
position, whose region (factors 0.7/0.7/0.5) is narrower than the attempt
region (0.8), not wider. -/
theorem findSafePosition_spec (hw hh hd : ℝ) (ex : List PObj) (os : ℝ) (rnd : ℕ → ℝ) :
    (∃ j, j < 50 ∧
      isSafePos ex os (candidatePos hw hh hd (rnd (3 * j)) (rnd (3 * j + 1)) (rnd (3 * j + 2))) ∧
      (∀ i, i < j → ¬ isSafePos ex os (candidatePos hw hh hd (rnd (3 * i)) (rnd (3 * i + 1))
        (rnd (3 * i + 2)))) ∧
      findSafePosition hw hh hd ex os rnd =
        candidatePos hw hh hd (rnd (3 * j)) (rnd (3 * j + 1)) (rnd (3 * j + 2)) ∧
      (∀ o ∈ ex, os * 2.0 + o.size ≤ Vec3.dist (findSafePosition hw hh hd ex os rnd) o.pos)) ∨
    ((∀ j, j < 50 → ¬ isSafePos ex os (candidatePos hw hh hd (rnd (3 * j)) (rnd (3 * j + 1))
        (rnd (3 * j + 2)))) ∧
      findSafePosition hw hh hd ex os rnd = fallbackPos hw hh hd (rnd 150) (rnd 151) (rnd 152)) := by
  have h := findSafeGo_spec hw hh hd ex os rnd 50 0
  simp only [Nat.zero_add] at h
  rcases h with ⟨j, hj, hsafe, hprev, heq⟩ | ⟨hall, heq⟩
  · left
    refine ⟨j, hj, hsafe, hprev, heq, ?_⟩
    intro o ho
    have hne := hsafe o ho
    show os * 2.0 + o.size ≤ Vec3.dist (findSafeGo hw hh hd ex os rnd 50 0) o.pos
    rw [heq]
    exact not_lt.mp hne
  · right
    exact ⟨hall, heq⟩

/-- An existing body of visual scale 0.9, stored collision radius 0.63. -/
def oBig : PObj := { pos := Vec3.zero, vel := Vec3.zero, mass := 729 / 1000, size := 63 / 100 }

/-- Random draws whose first candidate lands at (3/2, 0, 0). -/
def rndSpawn : ℕ → ℝ := fun n =>
  if n = 0 then 3 / 4 else if n = 1 then 1 / 2 else if n = 2 then 1 / 3 else 0

/-- C6 counterexample: spawning a body of scale 2/5 (collision radius 0.28)
next to an existing body of collision radius 0.63, the first candidate at
distance 3/2 passes the code's acceptance test (threshold 2 * 0.4 + 0.63 =
1.43) and is returned, yet 3/2 is smaller than 2.0 times the sum of the two
collision radii (1.82) — and also smaller than 2.0 times the sum of the two
visual scales (2.6) — so the claimed >= 2.0 x (radius sum) separation
guarantee fails. -/
theorem findSafePosition_separation_below_double_radii :
    findSafePosition (15 / 4) (15 / 4) (15 / 4) [oBig] (2 / 5) rndSpawn = ⟨3 / 2, 0, 0⟩ ∧
    Vec3.dist (⟨3 / 2, 0, 0⟩ : Vec3) oBig.pos = 3 / 2 ∧
    (3 / 2 : ℝ) < 2 * (collisionRadius (2 / 5) + oBig.size) ∧
    (3 / 2 : ℝ) < 2 * (2 / 5 + 9 / 10) := by
  have hdist : Vec3.dist (⟨3 / 2, 0, 0⟩ : Vec3) oBig.pos = 3 / 2 := by
    rw [show oBig.pos = (⟨0, 0, 0⟩ : Vec3) from rfl, Vec3.dist_xaxis]
    rw [show (0 : ℝ) - 3 / 2 = -(3 / 2) by norm_num, abs_neg,
      abs_of_nonneg (by norm_num : (0 : ℝ) ≤ 3 / 2)]
  have hcand : candidatePos (15 / 4) (15 / 4) (15 / 4) (rndSpawn (3 * 0))
      (rndSpawn (3 * 0 + 1)) (rndSpawn (3 * 0 + 2)) = ⟨3 / 2, 0, 0⟩ := by
    unfold candidatePos rndSpawn
    norm_num
  have hsafe : isSafePos [oBig] (2 / 5)
      (candidatePos (15 / 4) (15 / 4) (15 / 4) (rndSpawn (3 * 0)) (rndSpawn (3 * 0 + 1))
        (rndSpawn (3 * 0 + 2))) := by
    rw [hcand]
    intro o ho
    rw [List.mem_singleton] at ho
    subst ho
    rw [hdist]
    norm_num [oBig]
  refine ⟨?_, hdist, by norm_num [collisionRadius, oBig], by norm_num⟩
  unfold findSafePosition
  rw [findSafeGo_first_safe 49 hsafe, hcand]

/-! ## C7: highlight decay animation -/

/-- C7: for a sphere in the decaying state (isAnimating with a truthy start
time) and a frame time not before the start: while the elapsed time is
below the duration, the emissive intensity is set to the linear
interpolation from the peak 50 down to the original material's intensity at
progress clamp(elapsed/duration, 0, 1); once the elapsed time reaches the
duration (progress 1), the original material is restored exactly and the
animation state is cleared (back to Idle); and the update depends on the
frame time only through the elapsed time, so two samples at the same
timestamp give the same value. -/
theorem highlight_decay_spec (now t0 : ℝ) (s : Sphere)
    (ha : s.isAnimating = true) (ht : s.highlightStartTime = some t0) (h0 : t0 ≠ 0)
    (hel : 0 ≤ now - t0) :
    (now - t0 < highlightAnimationDuration →
      (updateHighlightOne now s).1.material.emissiveIntensity =
        50 - max 0 (min ((now - t0) / highlightAnimationDuration) 1) *
          (50 - s.originalMaterial.emissiveIntensity)) ∧
    (highlightAnimationDuration ≤ now - t0 →
      (updateHighlightOne now s).1.material = s.originalMaterial ∧
      (updateHighlightOne now s).1.isAnimating = false ∧
      (updateHighlightOne now s).1.highlightStartTime = none) ∧
    (∀ now₂ : ℝ, now₂ - t0 = now - t0 →
      updateHighlightOne now₂ s = updateHighlightOne now s) := by
  have hD : (0 : ℝ) < highlightAnimationDuration := by norm_num [highlightAnimationDuration]
  have hprog0 : 0 ≤ min ((now - t0) / highlightAnimationDuration) 1 :=
    le_min (div_nonneg hel (le_of_lt hD)) zero_le_one
  refine ⟨?_, ?_, ?_⟩
  · intro hlt
    have hp1 : min ((now - t0) / highlightAnimationDuration) 1 < 1 :=
      lt_of_le_of_lt (min_le_left _ _) ((div_lt_one hD).mpr hlt)
    simp only [updateHighlightOne, ht]
    rw [if_pos ⟨ha, h0⟩, if_pos hp1, max_eq_right hprog0]
  · intro hge
    have hp1 : min ((now - t0) / highlightAnimationDuration) 1 = 1 :=
      min_eq_right ((one_le_div hD).mpr hge)
    have hnlt : ¬ min ((now - t0) / highlightAnimationDuration) 1 < 1 := by
      rw [hp1]
      exact lt_irrefl 1
    simp only [updateHighlightOne, ht]
    rw [if_pos ⟨ha, h0⟩, if_neg hnlt]
    exact ⟨rfl, rfl, rfl⟩
  · intro now₂ h
    simp only [updateHighlightOne, ht, h]

/-- A concrete decaying sphere (original matte black, start time 100). -/
def sDecay : Sphere :=
  { material := glowingPinkMaterial, originalMaterial := matteBlackMaterial,
    bodyPos := Vec3.zero, bodyVel := Vec3.zero,
    isAnimating := true, highlightStartTime := some 100 }

/-- C7 witness: the decay law at the concrete sphere, sampled at time 600. -/
theorem highlight_decay_spec_witness :
    sDecay.isAnimating = true ∧ sDecay.highlightStartTime = some 100 ∧ (100 : ℝ) ≠ 0 ∧
    (0 : ℝ) ≤ 600 - 100 ∧
    (((600 : ℝ) - 100 < highlightAnimationDuration →
      (updateHighlightOne 600 sDecay).1.material.emissiveIntensity =
        50 - max 0 (min (((600 : ℝ) - 100) / highlightAnimationDuration) 1) *
          (50 - sDecay.originalMaterial.emissiveIntensity)) ∧
    (highlightAnimationDuration ≤ (600 : ℝ) - 100 →
      (updateHighlightOne 600 sDecay).1.material = sDecay.originalMaterial ∧
      (updateHighlightOne 600 sDecay).1.isAnimating = false ∧
      (updateHighlightOne 600 sDecay).1.highlightStartTime = none) ∧
    (∀ now₂ : ℝ, now₂ - 100 = (600 : ℝ) - 100 →
      updateHighlightOne now₂ sDecay = updateHighlightOne 600 sDecay)) :=
  ⟨rfl, rfl, by norm_num, by norm_num,
    highlight_decay_spec 600 100 sDecay rfl rfl (by norm_num) (by norm_num)⟩

/-! ## C8: hover / decay state machine -/

theorem modifyAt_getElem?_self (l : List α) (i : ℕ) (f : α → α) :
    (modifyAt l i f)[i]? = (l[i]?).map f := by
  induction l generalizing i with
  | nil => simp [modifyAt]
  | cons a as ih =>
    cases i with
    | zero => simp [modifyAt]
    | succ n => simpa [modifyAt] using ih n

theorem modifyAt_getElem?_ne (l : List α) (i j : ℕ) (f : α → α) (h : j ≠ i) :
    (modifyAt l i f)[j]? = l[j]? := by
  induction l generalizing i j with
  | nil => simp [modifyAt]
  | cons a as ih =>
    cases i with
    | zero =>
      cases j with
      | zero => exact absurd rfl h
      | succ m => simp [modifyAt]
    | succ n =>
      cases j with
      | zero => simp [modifyAt]
      | succ m =>
        simpa [modifyAt] using ih n m (fun hmn => h (by rw [hmn]))

theorem mapIdxFrom_getElem? (f : ℕ → α → β) (k : ℕ) (l : List α) (j : ℕ) :
    (mapIdxFrom f k l)[j]? = (l[j]?).map (f (k + j)) := by
  induction l generalizing k j with
  | nil => simp [mapIdxFrom]
  | cons a as ih =>
    cases j with
    | zero => simp [mapIdxFrom]
    | succ m =>
      simp only [mapIdxFrom, List.getElem?_cons_succ]
      rw [ih (k + 1) m, show k + 1 + m = k + (m + 1) by omega]

/-- A sphere that is not animating passes through the highlight update
unchanged and is not reported as completed. -/
theorem updateHighlightOne_not_animating {now : ℝ} {s : Sphere}
    (h : s.isAnimating = false) : updateHighlightOne now s = (s, false) := by
  cases hst : s.highlightStartTime with
  | none => simp only [updateHighlightOne, hst]
  | some t0 =>
    simp only [updateHighlightOne, hst]
    rw [if_neg (by simp [h])]

/-- The hovered-index fold of updateHighlightAnimations either keeps the
index or resets it to -1. -/
theorem hoverFold_eq_or (now : ℝ) :
    ∀ (l : List Sphere) (h : ℤ) (k : ℕ), hoverFold now l h k = h ∨ hoverFold now l h k = -1 := by
  intro l
  induction l with
  | nil => intro h k; exact Or.inl rfl
  | cons s rest ih =>
    intro h k
    simp only [hoverFold]
    by_cases hc : (updateHighlightOne now s).2 = true ∧ h = (k : ℤ)
    · rw [if_pos hc]
      rcases ih (-1) (k + 1) with h1 | h1 <;> exact Or.inr h1
    · rw [if_neg hc]
      exact ih h (k + 1)

/-- Every material produced by the highlight branch has peak intensity 50. -/
theorem mkHighlightMaterial_intensity (m : Material) :
    (mkHighlightMaterial m).emissiveIntensity = 50 := by
  unfold mkHighlightMaterial
  split_ifs <;> rfl

theorem hoverLeavePhase_cases (now : ℝ) (hit : Option ℕ) (st : BallPitState) :
    (hoverLeavePhase now hit st).hovered = -1 ∨ hoverLeavePhase now hit st = st := by
  unfold hoverLeavePhase
  split_ifs
  · exact Or.inl rfl
  · exact Or.inr rfl

theorem hoverLeavePhase_orig (now : ℝ) (hit : Option ℕ) (st : BallPitState) (i : ℕ)
    (s : Sphere) (hs : st.spheres[i]? = some s) :
    ∃ t, (hoverLeavePhase now hit st).spheres[i]? = some t ∧
      t.originalMaterial = s.originalMaterial := by
  unfold hoverLeavePhase
  split_ifs with h
  · by_cases hi : i = st.hovered.toNat
    · refine ⟨startDecay now s, ?_, rfl⟩
      show (modifyAt st.spheres st.hovered.toNat (startDecay now))[i]? = _
      rw [← hi, modifyAt_getElem?_self, hs]
      rfl
    · refine ⟨s, ?_, rfl⟩
      show (modifyAt st.spheres st.hovered.toNat (startDecay now))[i]? = _
      rw [modifyAt_getElem?_ne _ _ _ _ hi]
      exact hs
  · exact ⟨s, hs, rfl⟩

theorem chainPhase_getElem_self (rayDir : Vec3) (i : ℕ) (nearRnd : ℕ → Vec3)
    (st : BallPitState) :
    (chainPhase rayDir i nearRnd st)[i]? =
      (st.spheres[i]?).map fun s =>
        { s with bodyVel := Vec3.add s.bodyVel (Vec3.smul 8 rayDir) } := by
  unfold chainPhase
  rw [mapIdxFrom_getElem?]
  have himp : (impulsePhase rayDir i st)[i]? =
      (st.spheres[i]?).map fun s =>
        { s with bodyVel := Vec3.add s.bodyVel (Vec3.smul 8 rayDir) } := by
    unfold impulsePhase
    rw [modifyAt_getElem?_self]
  rw [himp]
  cases st.spheres[i]? with
  | none => rfl
  | some s => simp

theorem hoverEnterPhase_new (rayDir : Vec3) (i : ℕ) (nearRnd : ℕ → Vec3)
    (st : BallPitState) (h : (i : ℤ) ≠ st.hovered) :
    (hoverEnterPhase rayDir i nearRnd st).hovered = (i : ℤ) ∧
    (hoverEnterPhase rayDir i nearRnd st).spheres[i]? =
      (st.spheres[i]?).map fun s =>
        { s with bodyVel := Vec3.add s.bodyVel (Vec3.smul 8 rayDir),
                 isAnimating := false,
                 material := mkHighlightMaterial s.originalMaterial } := by
  unfold hoverEnterPhase
  rw [if_pos h]
  refine ⟨rfl, ?_⟩
  show (modifyAt (chainPhase rayDir i nearRnd st) i _)[i]? = _
  rw [modifyAt_getElem?_self, chainPhase_getElem_self]
  cases st.spheres[i]? with
  | none => rfl
  | some s => rfl

theorem hoverEnterPhase_old (rayDir : Vec3) (i : ℕ) (nearRnd : ℕ → Vec3)
    (st : BallPitState) (h : ¬ (i : ℤ) ≠ st.hovered) :
    (hoverEnterPhase rayDir i nearRnd st).hovered = st.hovered ∧
    (hoverEnterPhase rayDir i nearRnd st).spheres[i]? =
      (st.spheres[i]?).map fun s =>
        { s with bodyVel := Vec3.add s.bodyVel (Vec3.smul 8 rayDir) } := by
  unfold hoverEnterPhase
  rw [if_neg h]
  exact ⟨rfl, chainPhase_getElem_self rayDir i nearRnd st⟩

theorem checkSphereHover_none (now : ℝ) (rayDir : Vec3) (nearRnd : ℕ → Vec3)
    (st : BallPitState) :
    checkSphereHover now rayDir none nearRnd st = hoverLeavePhase now none st := rfl

theorem checkSphereHover_some (now : ℝ) (rayDir : Vec3) (i : ℕ) (nearRnd : ℕ → Vec3)
    (st : BallPitState) :
    checkSphereHover now rayDir (some i) nearRnd st =
      hoverEnterPhase rayDir i nearRnd (hoverLeavePhase now (some i) st) := rfl

/-- The exclusivity invariant: the hovered sphere is never decaying. -/
def hoverInv (st : BallPitState) : Prop :=
  ∀ (i : ℕ) (s : Sphere), st.hovered = (i : ℤ) → st.spheres[i]? = some s →
    s.isAnimating = false

/-- C8: the hover/decay exclusivity invariant (the hovered sphere is never
in the decaying state) is preserved by both the hover check and the
highlight animation update; when the pointer leaves the hovered sphere (ray
misses) the sphere enters the decaying state (isAnimating with the leave
time as start) and the hovered index is cleared to -1; and when a decaying
sphere is hit as a new hover, its decay is cancelled (isAnimating reset to
false) and the peak highlight material (emissive intensity 50, built from
its original material) is applied directly. -/
theorem hover_highlight_exclusive (now : ℝ) (rayDir : Vec3) (hit : Option ℕ)
    (nearRnd : ℕ → Vec3) (st : BallPitState) :
    (hoverInv st → hoverInv (checkSphereHover now rayDir hit nearRnd st)) ∧
    (hoverInv st → hoverInv (updateHighlightAnimations now st)) ∧
    (∀ (k : ℕ) (s : Sphere), st.hovered = (k : ℤ) → st.spheres[k]? = some s → hit = none →
      (checkSphereHover now rayDir hit nearRnd st).hovered = -1 ∧
      (checkSphereHover now rayDir hit nearRnd st).spheres[k]? = some (startDecay now s) ∧
      (startDecay now s).isAnimating = true ∧
      (startDecay now s).highlightStartTime = some now) ∧
    (∀ (i : ℕ) (s : Sphere), hit = some i → st.spheres[i]? = some s →
      (i : ℤ) ≠ st.hovered →
      (checkSphereHover now rayDir hit nearRnd st).hovered = (i : ℤ) ∧
      ∃ s', (checkSphereHover now rayDir hit nearRnd st).spheres[i]? = some s' ∧
        s'.isAnimating = false ∧
        s'.material = mkHighlightMaterial s.originalMaterial ∧
        s'.material.emissiveIntensity = 50) := by
  refine ⟨?_, ?_, ?_, ?_⟩
  · -- invariant preserved by checkSphereHover
    intro hinv i s hhov hsph
    cases hit with
    | none =>
      rw [checkSphereHover_none] at hhov hsph
      rcases hoverLeavePhase_cases now none st with hc | hc
      · rw [hc] at hhov
        exact absurd hhov (by omega)
      · rw [hc] at hhov hsph
        have h2 : st.hovered = -1 := by
          by_contra hcon
          have : hoverLeavePhase now none st =
              { spheres := modifyAt st.spheres st.hovered.toNat (startDecay now),
                hovered := -1 } := by
            unfold hoverLeavePhase
            rw [if_pos ⟨hcon, by simp⟩]
          rw [hc] at this
          have h3 : st.hovered = -1 := by rw [this]
          exact hcon h3
        rw [h2] at hhov
        exact absurd hhov (by omega)
    | some j =>
      rw [checkSphereHover_some] at hhov hsph
      by_cases hnew : (j : ℤ) ≠ (hoverLeavePhase now (some j) st).hovered
      · have h2 := hoverEnterPhase_new rayDir j nearRnd (hoverLeavePhase now (some j) st) hnew
        rw [h2.1] at hhov
        have hij : j = i := by exact_mod_cast hhov
        subst hij
        rw [h2.2] at hsph
        cases hA : (hoverLeavePhase now (some j) st).spheres[j]? with
        | none =>
          rw [hA] at hsph
          exact absurd hsph (by simp)
        | some t =>
          rw [hA] at hsph
          simp only [Option.map_some', Option.some.injEq] at hsph
          rw [← hsph]
      · rcases hoverLeavePhase_cases now (some j) st with hc | hc
        · exact absurd (by rw [hc]; omega : (j : ℤ) ≠ (hoverLeavePhase now (some j) st).hovered)
            hnew
        · have h2 := hoverEnterPhase_old rayDir j nearRnd (hoverLeavePhase now (some j) st) hnew
          rw [h2.1] at hhov
          push_neg at hnew
          rw [hc] at hhov hnew
          have hij : j = i := by
            rw [← hnew] at hhov
            exact_mod_cast hhov
          subst hij
          rw [h2.2, hc] at hsph
          cases hA : st.spheres[j]? with
          | none =>
            rw [hA] at hsph
            exact absurd hsph (by simp)
          | some t =>
            rw [hA] at hsph
            simp only [Option.map_some', Option.some.injEq] at hsph
            have htf : t.isAnimating = false := hinv j t hnew.symm hA
            rw [← hsph]
            exact htf
  · -- invariant preserved by updateHighlightAnimations
    intro hinv i s hhov hsph
    rw [show (updateHighlightAnimations now st).hovered =
      hoverFold now st.spheres st.hovered 0 from rfl] at hhov
    rw [show (updateHighlightAnimations now st).spheres =
      mapIdxFrom (fun _ s => (updateHighlightOne now s).1) 0 st.spheres from rfl] at hsph
    rcases hoverFold_eq_or now st.spheres st.hovered 0 with hf | hf
    · rw [hf] at hhov
      rw [mapIdxFrom_getElem?] at hsph
      cases hx : st.spheres[i]? with
      | none =>
        rw [hx] at hsph
        exact absurd hsph (by simp)
      | some t =>
        rw [hx] at hsph
        simp only [Option.map_some', Option.some.injEq] at hsph
        have htf : t.isAnimating = false := hinv i t hhov hx
        rw [updateHighlightOne_not_animating htf] at hsph
        rw [← hsph]
        exact htf
    · rw [hf] at hhov
      exact absurd hhov (by omega)
  · -- pointer leave: decay started, hovered cleared
    intro k s hk hs hnone
    subst hnone
    rw [checkSphereHover_none]
    have hfire : st.hovered ≠ -1 ∧
        (none : Option ℕ).map (fun n => (n : ℤ)) ≠ some st.hovered := by
      refine ⟨by rw [hk]; omega, by simp⟩
    have hLP : hoverLeavePhase now none st =
        { spheres := modifyAt st.spheres st.hovered.toNat (startDecay now), hovered := -1 } := by
      unfold hoverLeavePhase
      rw [if_pos hfire]
    rw [hLP]
    refine ⟨rfl, ?_, rfl, rfl⟩
    show (modifyAt st.spheres st.hovered.toNat (startDecay now))[k]? = _
    rw [hk, show ((k : ℤ).toNat) = k by omega, modifyAt_getElem?_self, hs]
    rfl
  · -- new hover on a (possibly decaying) sphere: decay cancelled, peak applied
    intro i s hhit hs hne
    subst hhit
    rw [checkSphereHover_some]
    obtain ⟨t, ht, horig⟩ := hoverLeavePhase_orig now (some i) st i s hs
    have hene : (i : ℤ) ≠ (hoverLeavePhase now (some i) st).hovered := by
      rcases hoverLeavePhase_cases now (some i) st with hc | hc
      · rw [hc]
        omega
      · rw [hc]
        exact hne
    have h2 := hoverEnterPhase_new rayDir i nearRnd (hoverLeavePhase now (some i) st) hene
    refine ⟨h2.1, ?_⟩
    rw [h2.2, ht]
    refine ⟨_, rfl, rfl, ?_, ?_⟩
    · show mkHighlightMaterial t.originalMaterial = mkHighlightMaterial s.originalMaterial
      rw [horig]
    · show (mkHighlightMaterial t.originalMaterial).emissiveIntensity = 50
      exact mkHighlightMaterial_intensity _

/-- C8 witness: re-hovering the concrete decaying sphere cancels its decay
and applies the peak highlight material. -/
theorem hover_highlight_exclusive_witness :
    ((⟨[sDecay], -1⟩ : BallPitState).spheres[(0 : ℕ)]? = some sDecay) ∧
    (((0 : ℕ) : ℤ) ≠ (⟨[sDecay], -1⟩ : BallPitState).hovered) ∧
    ((checkSphereHover 700 ⟨0, 0, 1⟩ (some 0) (fun _ => Vec3.zero)
        ⟨[sDecay], -1⟩).hovered = ((0 : ℕ) : ℤ) ∧
      ∃ s', (checkSphereHover 700 ⟨0, 0, 1⟩ (some 0) (fun _ => Vec3.zero)
          ⟨[sDecay], -1⟩).spheres[(0 : ℕ)]? = some s' ∧
        s'.isAnimating = false ∧
        s'.material = mkHighlightMaterial sDecay.originalMaterial ∧
        s'.material.emissiveIntensity = 50) :=
  ⟨rfl, by decide,
    (hover_highlight_exclusive 700 ⟨0, 0, 1⟩ (some 0) (fun _ => Vec3.zero)
        ⟨[sDecay], -1⟩).2.2.2 0 sDecay rfl rfl (by decide)⟩

/-! ## C9: resize resets interaction state -/

theorem length_flatMap_const {α β : Type} (l : List α) (f : α → List β) (c : ℕ)
    (h : ∀ a ∈ l, (f a).length = c) : (l.flatMap f).length = l.length * c := by
  induction l with
  | nil => simp
  | cons a as ih =>
    simp only [List.flatMap_cons, List.length_append, List.length_cons]
    rw [h a (List.mem_cons_self a as), ih (fun x hx => h x (List.mem_cons_of_mem a hx))]
    ring

/-- Every sphere created by the grid factory starts with no highlight
animation. -/
theorem createSphereGrid_fresh (gp : GridParams) (rnd : ℕ → ℕ → ℕ → CellRnd) :
    ∀ s ∈ createSphereGrid gp rnd, s.isAnimating = false ∧ s.highlightStartTime = none := by
  intro s hs
  unfold createSphereGrid at hs
  simp only [List.mem_flatMap, List.mem_map, List.mem_range] at hs
  obtain ⟨x, -, y, -, z, -, rfl⟩ := hs
  exact ⟨rfl, rfl⟩

/-- The grid factory creates exactly gridWidth * gridHeight * gridDepth
spheres. -/
theorem createSphereGrid_length (gp : GridParams) (rnd : ℕ → ℕ → ℕ → CellRnd) :
    (createSphereGrid gp rnd).length = gp.gridWidth * gp.gridHeight * gp.gridDepth := by
  unfold createSphereGrid
  rw [length_flatMap_const _ _ (gp.gridHeight * gp.gridDepth), List.length_range]
  · ring
  · intro x _
    rw [length_flatMap_const _ _ gp.gridDepth, List.length_range]
    intro y _
    rw [List.length_map, List.length_range]

/-- C9: a resize with no hovered sphere recreates all bodies from the new
viewport extents (a brand new grid with no highlight state and the full
grid count), recreates the container from the new extents, and leaves the
interaction state at none (hovered = -1); the handler is total, in
particular when the previous sphere list is empty. -/
theorem handleResize_resets_interaction (gridW gridH gridD : ℕ) (winW winH : ℝ)
    (rnd : ℕ → ℕ → ℕ → CellRnd) (st : BPFull) (h : st.hovered = -1) :
    handleResize gridW gridH gridD winW winH rnd st =
      { spheres := createSphereGrid
          ⟨gridW, gridH, gridD,
            (getViewportToWorldScale 50 (max 15 (15 / (winW / winH))) (winW / winH)).1,
            (getViewportToWorldScale 50 (max 15 (15 / (winW / winH))) (winW / winH)).2⟩ rnd,
        hovered := -1,
        container := createContainer
          (getViewportToWorldScale 50 (max 15 (15 / (winW / winH))) (winW / winH)).1
          (getViewportToWorldScale 50 (max 15 (15 / (winW / winH))) (winW / winH)).2 } ∧
    (handleResize gridW gridH gridD winW winH rnd st).hovered = -1 ∧
    (∀ s ∈ (handleResize gridW gridH gridD winW winH rnd st).spheres,
      s.isAnimating = false ∧ s.highlightStartTime = none) ∧
    (handleResize gridW gridH gridD winW winH rnd st).spheres.length =
      gridW * gridH * gridD := by
  have heq : handleResize gridW gridH gridD winW winH rnd st =
      { spheres := createSphereGrid
          ⟨gridW, gridH, gridD,
            (getViewportToWorldScale 50 (max 15 (15 / (winW / winH))) (winW / winH)).1,
            (getViewportToWorldScale 50 (max 15 (15 / (winW / winH))) (winW / winH)).2⟩ rnd,
        hovered := -1,
        container := createContainer
          (getViewportToWorldScale 50 (max 15 (15 / (winW / winH))) (winW / winH)).1
          (getViewportToWorldScale 50 (max 15 (15 / (winW / winH))) (winW / winH)).2 } := by
    simp only [handleResize]
    rw [if_pos h, h]
  refine ⟨heq, by rw [heq], ?_, ?_⟩
  · rw [heq]
    exact createSphereGrid_fresh _ _
  · rw [heq]
    show (createSphereGrid _ _).length = _
    rw [createSphereGrid_length]

/-- C9 witness: a resize of an empty, unhovered state (previous body count
zero) leaves the interaction state at none and raises no error. -/
theorem handleResize_resets_interaction_witness :
    (⟨[], -1, ⟨1, 1, 1⟩⟩ : BPFull).hovered = -1 ∧
    (handleResize 2 3 1 800 600 (fun _ _ _ => ⟨0, 0, 0, 0, 0⟩) ⟨[], -1, ⟨1, 1, 1⟩⟩ =
      { spheres := createSphereGrid
          ⟨2, 3, 1,
            (getViewportToWorldScale 50 (max 15 (15 / ((800 : ℝ) / 600))) ((800 : ℝ) / 600)).1,
            (getViewportToWorldScale 50 (max 15 (15 / ((800 : ℝ) / 600))) ((800 : ℝ) / 600)).2⟩
          (fun _ _ _ => ⟨0, 0, 0, 0, 0⟩),
        hovered := -1,
        container := createContainer
          (getViewportToWorldScale 50 (max 15 (15 / ((800 : ℝ) / 600))) ((800 : ℝ) / 600)).1
          (getViewportToWorldScale 50 (max 15 (15 / ((800 : ℝ) / 600))) ((800 : ℝ) / 600)).2 } ∧
    (handleResize 2 3 1 800 600 (fun _ _ _ => ⟨0, 0, 0, 0, 0⟩) ⟨[], -1, ⟨1, 1, 1⟩⟩).hovered = -1 ∧
    (∀ s ∈ (handleResize 2 3 1 800 600 (fun _ _ _ => ⟨0, 0, 0, 0, 0⟩)
        ⟨[], -1, ⟨1, 1, 1⟩⟩).spheres,
      s.isAnimating = false ∧ s.highlightStartTime = none) ∧
    (handleResize 2 3 1 800 600 (fun _ _ _ => ⟨0, 0, 0, 0, 0⟩)
        ⟨[], -1, ⟨1, 1, 1⟩⟩).spheres.length = 2 * 3 * 1) :=
  ⟨rfl, handleResize_resets_interaction 2 3 1 800 600 (fun _ _ _ => ⟨0, 0, 0, 0, 0⟩)
    ⟨[], -1, ⟨1, 1, 1⟩⟩ rfl⟩

end

end S2P
